import Mathlib

/-!
Verification of the cloudflare-chatbot core against its specification.

The development shallowly embeds the agent tool-call loop
(src/app/api/agents/[id]/route.ts: ToolRegistry, Agent), the
CouncilSession durable object (src/unnamed/part_002) and the
KnowledgePack durable object (src/src/durable-objects/KnowledgePack.ts).

Strings are modelled as Lean String or List Char; JS numbers as Rat;
timestamps (new Date().toISOString()) as an explicit String argument
supplied per operation; crypto.randomUUID() as an explicit argument.
The model-streaming collaborator is an arbitrary function from the
prepared message list to the full streamed turn text.
-/

namespace CloudflareChatbot

/-! ## JS string helpers -/

/-- The JS whitespace class used by the regex \s and by String.trim
(ASCII portion; the source only manipulates ASCII-delimited blocks). -/
def jsWhitespace (c : Char) : Bool :=
  [' ', '\t', '\n', '\r', '\x0b', '\x0c'].contains c

/-- Longest whitespace run at the head of a string (what the greedy
\s* of the tool-call regex can consume). -/
def wsRun (s : List Char) : List Char := s.takeWhile jsWhitespace

/-- JS String.prototype.trim. -/
def trimJs (s : List Char) : List Char :=
  ((s.dropWhile jsWhitespace).reverse.dropWhile jsWhitespace).reverse

/-- Index of the first occurrence of pattern pat in s, if any. -/
def firstIdxOf (pat : List Char) : List Char → Option Nat
  | [] => if List.isPrefixOf pat [] then some 0 else none
  | c :: rest =>
    if List.isPrefixOf pat (c :: rest) then some 0
    else (firstIdxOf pat rest).map (· + 1)

/-! ## The fenced-block scanner

Embedding of `content.match(/\x60\x60\x60(?:json)?\s*\n([\s\S]*?)\n\x60\x60\x60/)`
from Agent.parseToolCall, with JS leftmost-first backtracking semantics:
at each start position, the literal fence is matched, then the greedy
optional "json", then the greedy \s* backtracks from longest to shortest
so that the next character is a newline, then the lazy group runs to the
first later occurrence of newline-plus-fence. -/

/-- The three-backtick fence literal. -/
def fenceTicks : List Char := ['\x60', '\x60', '\x60']

/-- The literal "json" that may follow the opening fence. -/
def jsonLit : List Char := ['j', 's', 'o', 'n']

/-- Newline followed by the closing fence. -/
def nlFence : List Char := '\n' :: fenceTicks

/-- Offsets (within the whitespace run that \s* can consume) at which a
newline sits, in the order the backtracking engine tries them:
longest whitespace prefix first. -/
def newlineCandidates (t : List Char) : List Nat :=
  ((List.range (wsRun t).length).filter (fun L => t.getD L ' ' == '\n')).reverse

/-- Try each newline candidate in backtracking order; for each, the lazy
group ends at the first later newline-plus-fence. Returns the captured
group of the first candidate that completes. -/
def tryCandidates (t : List Char) : List Nat → Option (List Char)
  | [] => none
  | L :: Ls =>
    match firstIdxOf nlFence (t.drop (L + 1)) with
    | some e => some ((t.drop (L + 1)).take e)
    | none => tryCandidates t Ls

/-- Attempt the fenced-block pattern anchored at the head of s, returning
the captured group. -/
def matchFenceAt (s : List Char) : Option (List Char) :=
  if List.isPrefixOf fenceTicks s then
    let t := s.drop 3
    if List.isPrefixOf jsonLit t then tryCandidates (t.drop 4) (newlineCandidates (t.drop 4))
    else tryCandidates t (newlineCandidates t)
  else none

/-- The captured group of the first (leftmost) match of the fenced-block
regex in content; this is codeBlockMatch[1] in Agent.parseToolCall. -/
def firstCodeBlock : List Char → Option (List Char)
  | [] => none
  | c :: rest =>
    match matchFenceAt (c :: rest) with
    | some g => some g
    | none => firstCodeBlock rest

/-! ## JSON values and JSON.parse -/

/-- JSON values as produced by JSON.parse. Numbers are modelled as
rationals. Object fields are kept in insertion order with duplicate keys
collapsed (last value wins), as JSON.parse does. -/
inductive Json where
  | null : Json
  | bool (b : Bool) : Json
  | num (q : Rat) : Json
  | str (s : List Char) : Json
  | arr (elems : List Json) : Json
  | obj (fields : List (List Char × Json)) : Json

/-- Own-property lookup on a parsed JSON object. -/
def objLookup (fields : List (List Char × Json)) (key : List Char) : Option Json :=
  (List.find? (fun p => p.1 == key) fields).map (·.2)

/-- Property assignment as JSON.parse performs it while building an
object: an existing key keeps its position and gets the new value, a
fresh key is appended. -/
def objInsert (fields : List (List Char × Json)) (key : List Char) (v : Json) :
    List (List Char × Json) :=
  if fields.any (fun p => p.1 == key) then
    fields.map (fun p => if p.1 == key then (key, v) else p)
  else fields ++ [(key, v)]

/-- JS truthiness of a JSON value (arrays and objects are always truthy). -/
def jsTruthy : Json → Bool
  | .null => false
  | .bool b => b
  | .num q => q != 0
  | .str s => !s.isEmpty
  | .arr _ => true
  | .obj _ => true

/-- JSON whitespace accepted between tokens by JSON.parse. -/
def jsonWsChar (c : Char) : Bool :=
  [' ', '\t', '\n', '\r'].contains c

/-- Skip JSON inter-token whitespace. -/
def skipJsonWs (s : List Char) : List Char := s.dropWhile jsonWsChar

/-- Decimal digit test. -/
def isDigitChar (c : Char) : Bool := 48 ≤ c.toNat && c.toNat ≤ 57

/-- Value of a decimal digit. -/
def digitVal (c : Char) : Nat := c.toNat - 48

/-- Split a maximal run of decimal digits off the front. -/
def takeDigits : List Char → (List Char × List Char)
  | [] => ([], [])
  | c :: rest =>
    if isDigitChar c then
      let p := takeDigits rest
      (c :: p.1, p.2)
    else ([], c :: rest)

/-- Numeric value of a digit run. -/
def digitsToNat (ds : List Char) : Nat :=
  ds.foldl (fun acc c => acc * 10 + digitVal c) 0

/-- Value of a hexadecimal digit, if c is one. -/
def hexVal (c : Char) : Option Nat :=
  let n := c.toNat
  if 48 ≤ n && n ≤ 57 then some (n - 48)
  else if 97 ≤ n && n ≤ 102 then some (n - 87)
  else if 65 ≤ n && n ≤ 70 then some (n - 55)
  else none

/-- Parse the body of a JSON string literal (after the opening quote),
returning the decoded characters and the remainder after the closing
quote. Raw control characters are rejected, escapes are decoded. -/
def parseJsonString : Nat → List Char → Option (List Char × List Char)
  | 0, _ => none
  | _ + 1, [] => none
  | fuel + 1, c :: rest =>
    if c == '"' then some ([], rest)
    else if c == '\\' then
      match rest with
      | [] => none
      | e :: rest2 =>
        if e == '"' then (parseJsonString fuel rest2).map (fun p => ('"' :: p.1, p.2))
        else if e == '\\' then (parseJsonString fuel rest2).map (fun p => ('\\' :: p.1, p.2))
        else if e == '/' then (parseJsonString fuel rest2).map (fun p => ('/' :: p.1, p.2))
        else if e == 'b' then (parseJsonString fuel rest2).map (fun p => ('\x08' :: p.1, p.2))
        else if e == 'f' then (parseJsonString fuel rest2).map (fun p => ('\x0c' :: p.1, p.2))
        else if e == 'n' then (parseJsonString fuel rest2).map (fun p => ('\n' :: p.1, p.2))
        else if e == 'r' then (parseJsonString fuel rest2).map (fun p => ('\r' :: p.1, p.2))
        else if e == 't' then (parseJsonString fuel rest2).map (fun p => ('\t' :: p.1, p.2))
        else if e == 'u' then
          match rest2 with
          | h1 :: h2 :: h3 :: h4 :: rest3 =>
            match hexVal h1, hexVal h2, hexVal h3, hexVal h4 with
            | some a, some b, some c3, some d =>
              (parseJsonString fuel rest3).map
                (fun p => (Char.ofNat (((a * 16 + b) * 16 + c3) * 16 + d) :: p.1, p.2))
            | _, _, _, _ => none
          | _ => none
        else none
    else if c.toNat < 32 then none
    else (parseJsonString fuel rest).map (fun p => (c :: p.1, p.2))

/-- Parse a JSON number (grammar of JSON.parse, including the
no-leading-zero rule), returning its rational value. -/
def parseJsonNumber (s : List Char) : Option (Rat × List Char) :=
  let signSplit : Bool × List Char :=
    match s with
    | '-' :: r => (true, r)
    | _ => (false, s)
  let neg := signSplit.1
  let s1 := signSplit.2
  let intSplit : Option (List Char × List Char) :=
    match s1 with
    | '0' :: r =>
      match r with
      | d :: _ => if isDigitChar d then none else some (['0'], r)
      | [] => some (['0'], [])
    | _ =>
      let p := takeDigits s1
      if p.1.isEmpty then none else some p
  match intSplit with
  | none => none
  | some (intDigits, s2) =>
    let fracSplit : Option (List Char × List Char) :=
      match s2 with
      | '.' :: r2 =>
        let p := takeDigits r2
        if p.1.isEmpty then none else some p
      | _ => some ([], s2)
    match fracSplit with
    | none => none
    | some (fracDigits, s3) =>
      let expSplit : Option (Bool × List Char × List Char) :=
        match s3 with
        | 'e' :: r3 =>
          match r3 with
          | '+' :: r4 => let p := takeDigits r4; if p.1.isEmpty then none else some (false, p.1, p.2)
          | '-' :: r4 => let p := takeDigits r4; if p.1.isEmpty then none else some (true, p.1, p.2)
          | _ => let p := takeDigits r3; if p.1.isEmpty then none else some (false, p.1, p.2)
        | 'E' :: r3 =>
          match r3 with
          | '+' :: r4 => let p := takeDigits r4; if p.1.isEmpty then none else some (false, p.1, p.2)
          | '-' :: r4 => let p := takeDigits r4; if p.1.isEmpty then none else some (true, p.1, p.2)
          | _ => let p := takeDigits r3; if p.1.isEmpty then none else some (false, p.1, p.2)
        | _ => some (false, [], s3)
      match expSplit with
      | none => none
      | some (expNeg, expDigits, s4) =>
        let mant : Rat :=
          (digitsToNat (intDigits ++ fracDigits) : Rat) / ((10 : Rat) ^ fracDigits.length)
        let expVal := digitsToNat expDigits
        let scaled : Rat :=
          if expNeg then mant / ((10 : Rat) ^ expVal) else mant * ((10 : Rat) ^ expVal)
        some (if neg then -scaled else scaled, s4)

mutual

/-- Parse one JSON value. Fuel decreases once per recursive call; every
call site has consumed at least one character, so input length plus one
is always enough fuel. -/
def parseJsonValue : Nat → List Char → Option (Json × List Char)
  | 0, _ => none
  | fuel + 1, s0 =>
    match skipJsonWs s0 with
    | [] => none
    | c :: rest =>
      if c == '"' then
        (parseJsonString fuel rest).map (fun p => (Json.str p.1, p.2))
      else if c == '\x7b' then
        match skipJsonWs rest with
        | '\x7d' :: r2 => some (Json.obj [], r2)
        | r => (parseJsonMembers fuel r []).map (fun p => (Json.obj p.1, p.2))
      else if c == '[' then
        match skipJsonWs rest with
        | ']' :: r2 => some (Json.arr [], r2)
        | r => (parseJsonElems fuel r []).map (fun p => (Json.arr p.1, p.2))
      else if List.isPrefixOf ['t', 'r', 'u', 'e'] (c :: rest) then
        some (Json.bool true, (c :: rest).drop 4)
      else if List.isPrefixOf ['f', 'a', 'l', 's', 'e'] (c :: rest) then
        some (Json.bool false, (c :: rest).drop 5)
      else if List.isPrefixOf ['n', 'u', 'l', 'l'] (c :: rest) then
        some (Json.null, (c :: rest).drop 4)
      else if c == '-' || isDigitChar c then
        (parseJsonNumber (c :: rest)).map (fun p => (Json.num p.1, p.2))
      else none

/-- Parse the members of a JSON object after its opening brace (first
member onward), collapsing duplicate keys last-wins. -/
def parseJsonMembers :
    Nat → List Char → List (List Char × Json) → Option (List (List Char × Json) × List Char)
  | 0, _, _ => none
  | fuel + 1, s, acc =>
    match skipJsonWs s with
    | '"' :: r =>
      match parseJsonString fuel r with
      | none => none
      | some (key, r2) =>
        match skipJsonWs r2 with
        | ':' :: r3 =>
          match parseJsonValue fuel r3 with
          | none => none
          | some (v, r4) =>
            match skipJsonWs r4 with
            | ',' :: r5 => parseJsonMembers fuel r5 (objInsert acc key v)
            | '\x7d' :: r5 => some (objInsert acc key v, r5)
            | _ => none
        | _ => none
    | _ => none

/-- Parse the elements of a JSON array after its opening bracket (first
element onward). -/
def parseJsonElems : Nat → List Char → List Json → Option (List Json × List Char)
  | 0, _, _ => none
  | fuel + 1, s, acc =>
    match parseJsonValue fuel s with
    | none => none
    | some (v, r) =>
      match skipJsonWs r with
      | ',' :: r2 => parseJsonElems fuel r2 (acc ++ [v])
      | ']' :: r2 => some (acc ++ [v], r2)
      | _ => none

end

/-- JSON.parse: one complete JSON value with only whitespace around it;
any failure is a thrown SyntaxError, modelled as none. -/
def jsonParse (s : List Char) : Option Json :=
  match parseJsonValue (s.length + 1) s with
  | some (v, rest) => if (skipJsonWs rest).isEmpty then some v else none
  | none => none

/-! ## Agent.parseToolCall -/

/-- The value Agent.parseToolCall returns for a turn that contains a
tool call: the tool field as parsed (any JSON value) and the parameters,
defaulted to an empty object when absent or falsy. -/
structure ParsedToolCall where
  tool : Json
  parameters : Json

/-- Agent.parseToolCall: capture the first fenced block, JSON.parse its
trimmed body, and accept any parsed object owning a tool property;
parsed.parameters or-defaults to the empty object. Parse failures and
blockless turns give null. -/
def Agent.parseToolCall (content : List Char) : Option ParsedToolCall :=
  match firstCodeBlock content with
  | none => none
  | some g =>
    match jsonParse (trimJs g) with
    | none => none
    | some parsed =>
      match parsed with
      | Json.obj fields =>
        match objLookup fields "tool".data with
        | some t =>
          some { tool := t,
                 parameters :=
                   match objLookup fields "parameters".data with
                   | some p => if jsTruthy p then p else Json.obj []
                   | none => Json.obj [] }
        | none => none
      | _ => none

/-! ## Tool registry -/

/-- One issue of a ZodError: e.path (rendered joined with dots) and
e.message. -/
structure ZodIssue where
  path : List String
  message : String

/-- Outcome of a tool execute call: the returned value, together with
whether the call set the agent stop flag (only the finish tool does), or
a thrown error with its message. -/
inductive ExecOutcome where
  | ok (result : Json) (setStop : Bool) : ExecOutcome
  | err (msg : String) : ExecOutcome

/-- A registered tool. The Zod parameter schema is embedded as its
validation function (schema.parse) together with the parameter synopsis
that zodToDescription renders for it. -/
structure ToolDefinition where
  id : String
  name : String
  description : String
  paramsDesc : String
  validate : Json → Except (List ZodIssue) Json
  execute : Json → ExecOutcome

/-- The registry map, as a JS Map: insertion-ordered entries with unique
keys. -/
abbrev ToolRegistry := List (String × ToolDefinition)

/-- ToolRegistry.register: Map.set by tool.id; an existing id keeps its
position and has its value replaced, a fresh id is appended. Never an
error. -/
def ToolRegistry.register (reg : ToolRegistry) (tool : ToolDefinition) : ToolRegistry :=
  if reg.any (fun p => p.1 == tool.id) then
    reg.map (fun p => if p.1 == tool.id then (tool.id, tool) else p)
  else reg ++ [(tool.id, tool)]

/-- ToolRegistry.get: Map.get by id. -/
def ToolRegistry.get (reg : ToolRegistry) (id : String) : Option ToolDefinition :=
  (List.find? (fun p => p.1 == id) reg).map (·.2)

/-- ToolRegistry.getAll: the registered tools in insertion order. -/
def ToolRegistry.getAll (reg : ToolRegistry) : List ToolDefinition := reg.map (·.2)

/-- Array.prototype.join with a separator. -/
def joinSep (sep : String) : List String → String
  | [] => ""
  | s :: rest => if rest.isEmpty then s else s ++ sep ++ joinSep sep rest

/-- ToolRegistry.generateToolPrompt: the system-prompt section
describing every registered tool; the empty string for an empty
registry. -/
def ToolRegistry.generateToolPrompt (reg : ToolRegistry) : String :=
  if reg.length == 0 then ""
  else
    let toolDescriptions := joinSep "\n" ((ToolRegistry.getAll reg).map (fun tool =>
      "\n### " ++ tool.name ++ "\n**ID:** " ++ tool.id ++ "\n**Description:** " ++
        tool.description ++ "\n**Parameters:**\n" ++ tool.paramsDesc))
    "\n# Available Tools\n\nYou have access to the following tools. To use a tool, respond with a JSON code block in this exact format:\n\n\x60\x60\x60json\n\x7b\n  \"tool\": \"tool_id_here\",\n  \"parameters\": \x7b\n    \"param1\": \"value1\",\n    \"param2\": \"value2\"\n  \x7d\n\x7d\n\x60\x60\x60\n\n" ++
      toolDescriptions ++
      "\n\n# Loop Control\n\nYou can end the conversation loop at any time by using the special \"finish\" tool:\n\n\x60\x60\x60json\n\x7b\n  \"tool\": \"finish\",\n  \"parameters\": \x7b\n    \"reason\": \"Task completed successfully\"\n  \x7d\n\x7d\n\x60\x60\x60\n\nIMPORTANT: \n- Only use tools when necessary to answer the user\x27s question\n- Always respond with the JSON format shown above when calling a tool\n- After receiving tool results, you can either call another tool or provide a final answer\n- Use the \"finish\" tool when you\x27ve completed the task and want to end the loop\n- If you provide a response without any tool calls, the loop will also end naturally\n"

/-! ## JSON.stringify and template-literal rendering (collaborators) -/

/-- Escaping inside a stringified JSON string (common escapes; exotic
control characters are not refined further, no verified property depends
on them). -/
def escapeJsonChar (c : Char) : List Char :=
  if c == '"' then ['\\', '"']
  else if c == '\\' then ['\\', '\\']
  else if c == '\n' then ['\\', 'n']
  else if c == '\t' then ['\\', 't']
  else if c == '\r' then ['\\', 'r']
  else [c]

/-- Stringified JSON string literal. -/
def renderStr (s : List Char) : String :=
  "\"" ++ String.mk (s.map escapeJsonChar).flatten ++ "\""

/-- Rendering of a JS number. Integers render exactly; the decimal
formatting of non-integers is not modelled further (no verified property
depends on it). -/
def renderNum (q : Rat) : String :=
  if q.den == 1 then toString q.num else toString q.num ++ "/" ++ toString q.den

mutual

/-- JSON.stringify(v) without indentation. -/
def jsonStringifyCompact : Json → String
  | .null => "null"
  | .bool b => if b then "true" else "false"
  | .num q => renderNum q
  | .str s => renderStr s
  | .arr xs => "[" ++ stringifyElems xs ++ "]"
  | .obj fs => "\x7b" ++ stringifyFields fs ++ "\x7d"

/-- Comma-joined compact elements. -/
def stringifyElems : List Json → String
  | [] => ""
  | [x] => jsonStringifyCompact x
  | x :: xs => jsonStringifyCompact x ++ "," ++ stringifyElems xs

/-- Comma-joined compact members. -/
def stringifyFields : List (List Char × Json) → String
  | [] => ""
  | [f] => renderStr f.1 ++ ":" ++ jsonStringifyCompact f.2
  | f :: fs => renderStr f.1 ++ ":" ++ jsonStringifyCompact f.2 ++ "," ++ stringifyFields fs

end

/-- Two-space indentation at a nesting depth. -/
def indentStr (depth : Nat) : String := String.mk (List.replicate (2 * depth) ' ')

mutual

/-- JSON.stringify(v, null, 2). -/
def jsonStringifyPrettyAt (depth : Nat) : Json → String
  | .arr [] => "[]"
  | .arr (x :: xs) =>
    "[\n" ++ prettyElems (depth + 1) (x :: xs) ++ "\n" ++ indentStr depth ++ "]"
  | .obj [] => "\x7b\x7d"
  | .obj (f :: fs) =>
    "\x7b\n" ++ prettyFields (depth + 1) (f :: fs) ++ "\n" ++ indentStr depth ++ "\x7d"
  | v => jsonStringifyCompact v

/-- Indented, comma-newline-joined elements. -/
def prettyElems (depth : Nat) : List Json → String
  | [] => ""
  | [x] => indentStr depth ++ jsonStringifyPrettyAt depth x
  | x :: xs => indentStr depth ++ jsonStringifyPrettyAt depth x ++ ",\n" ++ prettyElems depth xs

/-- Indented, comma-newline-joined members. -/
def prettyFields (depth : Nat) : List (List Char × Json) → String
  | [] => ""
  | [f] => indentStr depth ++ renderStr f.1 ++ ": " ++ jsonStringifyPrettyAt depth f.2
  | f :: fs =>
    indentStr depth ++ renderStr f.1 ++ ": " ++ jsonStringifyPrettyAt depth f.2 ++ ",\n" ++
      prettyFields depth fs

end

/-- JSON.stringify(v, null, 2) from depth zero. -/
def jsonStringifyPretty (v : Json) : String := jsonStringifyPrettyAt 0 v

mutual

/-- JS template-literal stringification of a JSON value. -/
def jsTemplate : Json → String
  | .str s => String.mk s
  | .num q => renderNum q
  | .bool b => if b then "true" else "false"
  | .null => "null"
  | .arr xs => jsTemplateElems xs
  | .obj _ => "[object Object]"

/-- Array.prototype.toString: elements joined with commas. -/
def jsTemplateElems : List Json → String
  | [] => ""
  | [x] => jsTemplate x
  | x :: xs => jsTemplate x ++ "," ++ jsTemplateElems xs

end

/-! ## The agent -/

/-- Message roles. -/
inductive Role where
  | user : Role
  | assistant : Role
  | system : Role
deriving DecidableEq

/-- A conversation message. -/
structure Message where
  role : Role
  content : String
deriving DecidableEq

/-- Agent configuration. The model identifier and provider are opaque to
the loop (the model-calling capability is passed to run as a function);
the observer callbacks are modelled as the event traces the run
accumulates. -/
structure AgentConfig where
  systemPrompt : String
  toolRegistry : ToolRegistry
  maxIterations : Option Nat

/-- JS x or-default: a missing or falsy (zero) value falls back. -/
def jsOrNat (v : Option Nat) (dflt : Nat) : Nat :=
  match v with
  | some n => if n == 0 then dflt else n
  | none => dflt

/-- Map.get with the raw parsed tool field as key: the registry keys are
strings, so only a string value can match. -/
def registryGetJson (reg : ToolRegistry) (toolId : Json) : Option ToolDefinition :=
  match toolId with
  | Json.str s => ToolRegistry.get reg (String.mk s)
  | _ => none

/-- The z.object schema of the finish tool, with a reason string; its parse strips
unknown keys (exact Zod message texts are abbreviated). -/
def finishValidate (j : Json) : Except (List ZodIssue) Json :=
  match j with
  | Json.obj fields =>
    match objLookup fields "reason".data with
    | some (Json.str s) => Except.ok (Json.obj [("reason".data, Json.str s)])
    | some _ => Except.error [⟨["reason"], "Expected string"⟩]
    | none => Except.error [⟨["reason"], "Required"⟩]
  | _ => Except.error [⟨[], "Expected object"⟩]

/-- The execute function of the finish tool: sets the stop flag and echoes the
reason. -/
def finishExecute (params : Json) : ExecOutcome :=
  let reason :=
    match params with
    | Json.obj fields => (objLookup fields "reason".data).getD Json.null
    | _ => Json.null
  ExecOutcome.ok
    (Json.obj [("status".data, Json.str "finished".data), ("reason".data, reason)]) true

/-- The built-in finish tool registered by Agent.registerFinishTool. -/
def finishTool : ToolDefinition where
  id := "finish"
  name := "Finish"
  description := "Ends the conversation loop. Use this when you have completed the task."
  paramsDesc := "    - reason (string): The reason for ending the conversation"
  validate := finishValidate
  execute := finishExecute

/-- Rendering of one ZodError issue inside the validation-failure
messages. -/
def ZodIssue.render (e : ZodIssue) : String := joinSep "." e.path ++ ": " ++ e.message

/-- The state of one run call: conversation history, the yielded
fragment trace, the onToolCall and onToolResult event traces, the stop
flag and the executed iteration count. -/
structure RunAcc where
  messages : List Message
  fragments : List String
  toolCallEvents : List (String × Json)
  toolResultEvents : List (String × Json)
  shouldStop : Bool
  iterations : Nat

/-- The fragment yielded when the finish tool stopped the loop. -/
def finishedFragment (toolResult : Json) : String :=
  let reason :=
    match toolResult with
    | Json.obj fields =>
      match objLookup fields "reason".data with
      | some v => if jsTruthy v then jsTemplate v else "Task completed"
      | none => "Task completed"
    | _ => "Task completed"
  "\n\n[Finished: " ++ reason ++ "]"

/-- The fragment yielded after the while loop when the iteration budget
was exhausted with the stop flag unset. -/
def maxIterationsFragment : String := "\n\n[Max iterations reached]"

/-- The message array prepared for the model on one iteration: the
system instruction followed by the whole history. -/
def preparedMessages (systemPrompt : String) (msgs : List Message) : List Message :=
  { role := Role.system, content := systemPrompt } :: msgs

/-- One iteration of the while loop in Agent.run: stream a turn, append
it as the assistant message, scan it for a tool call, and dispatch.
Returns the updated state and whether the loop breaks. -/
def agentBody (reg : ToolRegistry) (llm : List Message → String) (systemPrompt : String)
    (acc0 : RunAcc) : RunAcc × Bool :=
  let fullContent := llm (preparedMessages systemPrompt acc0.messages)
  let acc := { acc0 with
    iterations := acc0.iterations + 1,
    fragments := acc0.fragments ++ [fullContent],
    messages := acc0.messages ++ [{ role := Role.assistant, content := fullContent }] }
  match Agent.parseToolCall fullContent.data with
  | none => (acc, true)
  | some toolCall =>
    match registryGetJson reg toolCall.tool with
    | none =>
      ({ acc with
         fragments := acc.fragments ++
           ["\n\n[Error: Tool \x27" ++ jsTemplate toolCall.tool ++ "\x27 not found]"],
         messages := acc.messages ++
           [{ role := Role.user,
              content := "Error: Tool \x27" ++ jsTemplate toolCall.tool ++
                "\x27 not found. Available tools: " ++
                joinSep ", " ((ToolRegistry.getAll reg).map (fun t => t.id)) }] }, false)
    | some tool =>
      match tool.validate toolCall.parameters with
      | Except.error errs =>
        let detail := joinSep ", " (errs.map ZodIssue.render)
        ({ acc with
           fragments := acc.fragments ++ ["\n\n[Parameter Validation Error: " ++ detail ++ "]"],
           messages := acc.messages ++
             [{ role := Role.user,
                content := "Parameter validation failed for tool \x27" ++ tool.id ++
                  "\x27: " ++ detail }] }, false)
      | Except.ok validatedParams =>
        let acc := { acc with toolCallEvents := acc.toolCallEvents ++ [(tool.id, validatedParams)] }
        match tool.execute validatedParams with
        | ExecOutcome.err msg =>
          ({ acc with
             fragments := acc.fragments ++ ["\n\n[Tool Execution Error: " ++ msg ++ "]"],
             messages := acc.messages ++
               [{ role := Role.user,
                  content := "Error executing tool \x27" ++ tool.id ++ "\x27: " ++ msg }] }, false)
        | ExecOutcome.ok toolResult setStop =>
          let acc := { acc with
            toolResultEvents := acc.toolResultEvents ++ [(tool.id, toolResult)],
            shouldStop := acc.shouldStop || setStop }
          if acc.shouldStop then
            ({ acc with fragments := acc.fragments ++ [finishedFragment toolResult] }, true)
          else
            ({ acc with
               fragments := acc.fragments ++
                 ["\n\n[Tool Result from " ++ tool.name ++ "]\n" ++
                   jsonStringifyPretty toolResult],
               messages := acc.messages ++
                 [{ role := Role.user,
                    content := "Tool \x27" ++ tool.id ++ "\x27 returned: " ++
                      jsonStringifyCompact toolResult }] }, false)

/-- The while loop of Agent.run: fuel is the remaining iteration budget,
the stop flag is observed at the top of each iteration. -/
def agentLoop (reg : ToolRegistry) (llm : List Message → String) (systemPrompt : String) :
    Nat → RunAcc → RunAcc
  | 0, acc => acc
  | fuel + 1, acc =>
    if acc.shouldStop then acc
    else
      let r := agentBody reg llm systemPrompt acc
      if r.2 then r.1 else agentLoop reg llm systemPrompt fuel r.1

/-- Agent.getSystemPrompt: configured prompt plus the registry
description. -/
def Agent.getSystemPrompt (cfg : AgentConfig) (reg : ToolRegistry) : String :=
  cfg.systemPrompt ++ "\n\n" ++ ToolRegistry.generateToolPrompt reg

/-- Agent.run(userMessage): reset the stop flag, append the user turn,
iterate up to maxIterations (default 10, JS or-semantics), and emit the
max-iterations fragment when the budget is exhausted with the stop flag
unset. The finish tool has been registered by the constructor. history
is the instance message state from earlier runs. -/
def Agent.run (cfg : AgentConfig) (llm : List Message → String)
    (history : List Message) (userMessage : String) : RunAcc :=
  let reg := ToolRegistry.register cfg.toolRegistry finishTool
  let maxIterations := jsOrNat cfg.maxIterations 10
  let acc0 : RunAcc :=
    { messages := history ++ [{ role := Role.user, content := userMessage }],
      fragments := [], toolCallEvents := [], toolResultEvents := [],
      shouldStop := false, iterations := 0 }
  let acc := agentLoop reg llm (Agent.getSystemPrompt cfg reg) maxIterations acc0
  if maxIterations ≤ acc.iterations ∧ acc.shouldStop = false then
    { acc with fragments := acc.fragments ++ [maxIterationsFragment] }
  else acc

/-! ## JS or-default helpers for durable-object payloads -/

/-- JS string or-default: undefined or the empty string falls back. -/
def jsOrStr (v : Option String) (dflt : String) : String :=
  match v with
  | some s => if s == "" then dflt else s
  | none => dflt

/-- JS number or-default: undefined or zero falls back. -/
def jsOrInt (v : Option Int) (dflt : Int) : Int :=
  match v with
  | some n => if n == 0 then dflt else n
  | none => dflt

/-- JS array or-default to the empty array: any present array (arrays
are always truthy) is kept. -/
def jsOrList (v : Option (List String)) : List String := v.getD []

/-! ## CouncilSession durable object -/

/-- The stage union of CouncilSessionState. -/
inductive Stage where
  | initializing : Stage
  | deliberating : Stage
  | synthesizing_round : Stage
  | synthesizing_final : Stage
  | completed : Stage
  | failed : Stage
deriving DecidableEq

/-- One recorded deliberation. -/
structure Deliberation where
  round : Int
  agentId : String
  content : String
  timestamp : String
deriving DecidableEq

/-- CouncilSessionState. -/
structure CouncilSessionState where
  id : String
  question : String
  stage : Stage
  maxRounds : Int
  currentRound : Int
  createdBy : String
  agentIds : List String
  decision : Option String
  consensusScore : Option Rat
  confidenceLevel : Option Rat
  attachedFiles : Option (List String)
  attachedArtifacts : Option (List String)
  deliberations : List Deliberation
  createdAt : String
  updatedAt : String
deriving DecidableEq

/-- The Partial payload accepted by the session initialize operation. -/
structure CouncilInit where
  id : Option String
  question : Option String
  maxRounds : Option Int
  createdBy : Option String
  agentIds : Option (List String)
  attachedFiles : Option (List String)
  attachedArtifacts : Option (List String)
deriving DecidableEq

/-- The session initialize operation (named initSession here because of
a Lean keyword clash): overwrite the whole state (full reset) regardless
of any prior state. -/
def CouncilSession.initSession (data : CouncilInit) (uuid now : String)
    (_s : Option CouncilSessionState) : CouncilSessionState :=
  { id := jsOrStr data.id uuid
    question := jsOrStr data.question ""
    stage := Stage.initializing
    maxRounds := jsOrInt data.maxRounds 3
    currentRound := 0
    createdBy := jsOrStr data.createdBy ""
    agentIds := jsOrList data.agentIds
    decision := none
    consensusScore := none
    confidenceLevel := none
    attachedFiles := data.attachedFiles
    attachedArtifacts := data.attachedArtifacts
    deliberations := []
    createdAt := now
    updatedAt := now }

/-- CouncilSession.addDeliberation: requires a state; appends an entry
stamped with the current round and forces the stage to deliberating. -/
def CouncilSession.addDeliberation (agentId content now : String) :
    Option CouncilSessionState → Except String CouncilSessionState
  | none => Except.error "Session not initialized"
  | some s =>
    Except.ok { s with
      deliberations := s.deliberations ++
        [{ round := s.currentRound, agentId := agentId, content := content, timestamp := now }],
      stage := Stage.deliberating,
      updatedAt := now }

/-- CouncilSession.synthesize: requires a state; sets currentRound to
the supplied round unconditionally and picks the synthesizing stage by
comparing it with maxRounds. -/
def CouncilSession.synthesize (round : Int) (now : String) :
    Option CouncilSessionState → Except String CouncilSessionState
  | none => Except.error "Session not initialized"
  | some s =>
    Except.ok { s with
      currentRound := round,
      stage := if s.maxRounds ≤ round then Stage.synthesizing_final else Stage.synthesizing_round,
      updatedAt := now }

/-- CouncilSession.complete: requires a state; records the decision
fields and sets the stage to completed, with no already-completed
guard. -/
def CouncilSession.complete (decision : String) (consensusScore confidenceLevel : Rat)
    (now : String) : Option CouncilSessionState → Except String CouncilSessionState
  | none => Except.error "Session not initialized"
  | some s =>
    Except.ok { s with
      decision := some decision,
      consensusScore := some consensusScore,
      confidenceLevel := some confidenceLevel,
      stage := Stage.completed,
      updatedAt := now }

/-- One council-session request, for reasoning about operation
histories. -/
inductive CouncilOp where
  | init (data : CouncilInit) (uuid : String) : CouncilOp
  | deliberate (agentId content : String) : CouncilOp
  | synthesize (round : Int) : CouncilOp
  | complete (decision : String) (consensusScore confidenceLevel : Rat) : CouncilOp

/-- Effect of one request on the stored snapshot; a rejected request
(uninitialized state) leaves the snapshot unchanged. -/
def councilStep (op : CouncilOp) (now : String) (s : Option CouncilSessionState) :
    Option CouncilSessionState :=
  match op with
  | .init data uuid => some (CouncilSession.initSession data uuid now s)
  | .deliberate a c =>
    match CouncilSession.addDeliberation a c now s with
    | .ok s' => some s'
    | .error _ => s
  | .synthesize r =>
    match CouncilSession.synthesize r now s with
    | .ok s' => some s'
    | .error _ => s
  | .complete d cs cl =>
    match CouncilSession.complete d cs cl now s with
    | .ok s' => some s'
    | .error _ => s

/-- The rank of a stage along the specified order
initializing < deliberating ≤ synthesizing_round/synthesizing_final <
completed (failed is outside the order and unreachable). -/
def stageRank : Stage → Nat
  | .initializing => 0
  | .failed => 0
  | .deliberating => 1
  | .synthesizing_round => 2
  | .synthesizing_final => 2
  | .completed => 3

/-! ## KnowledgePack durable object -/

/-- One scored knowledge-pack entry. -/
structure KPEntry where
  content : String
  agentId : String
  score : Rat
  sources : List String
  timestamp : String
deriving DecidableEq

/-- KnowledgePackState. -/
structure KnowledgePackState where
  id : String
  title : String
  description : String
  content : String
  councilSessionId : String
  createdBy : String
  embeddingId : Option String
  tags : Option (List String)
  isPublic : Option Bool
  consensusScore : Rat
  sourceFiles : Option (List String)
  sourceArtifacts : Option (List String)
  entries : List KPEntry
  createdAt : String
  updatedAt : String
deriving DecidableEq

/-- Result of one KnowledgePack request: the response (payload or error
text), the snapshot afterwards, and whether storage.put ran. -/
structure KPOut (α : Type) where
  response : Except String α
  state : Option KnowledgePackState
  wrote : Bool

/-- The fields KnowledgePack.create reads from its Partial payload. -/
structure KPCreate where
  id : Option String
  title : Option String
  description : Option String
  councilSessionId : Option String
  createdBy : Option String
  tags : Option (List String)
  isPublic : Option Bool
  sourceFiles : Option (List String)
  sourceArtifacts : Option (List String)
deriving DecidableEq

/-- KnowledgePack.create: reset to a fresh snapshot with empty content,
zero consensus score, no embedding id and no entries, regardless of any
prior state. -/
def KnowledgePack.create (data : KPCreate) (uuid now : String)
    (_s : Option KnowledgePackState) : KPOut KnowledgePackState :=
  let st : KnowledgePackState :=
    { id := jsOrStr data.id uuid
      title := jsOrStr data.title ""
      description := jsOrStr data.description ""
      content := ""
      councilSessionId := jsOrStr data.councilSessionId ""
      createdBy := jsOrStr data.createdBy ""
      embeddingId := none
      tags := data.tags
      isPublic := data.isPublic
      consensusScore := 0
      sourceFiles := data.sourceFiles
      sourceArtifacts := data.sourceArtifacts
      entries := []
      createdAt := now
      updatedAt := now }
  ⟨Except.ok st, some st, true⟩

/-- KnowledgePack.addEntry: append a timestamped entry. -/
def KnowledgePack.addEntry (content agentId : String) (score : Rat) (sources : List String)
    (now : String) : Option KnowledgePackState → KPOut KnowledgePackState
  | none => ⟨Except.error "Knowledge pack not initialized", none, false⟩
  | some s =>
    let st := { s with
      entries := s.entries ++
        [{ content := content, agentId := agentId, score := score, sources := sources,
           timestamp := now }],
      updatedAt := now }
    ⟨Except.ok st, some st, true⟩

/-- KnowledgePack.finalize: set the synthesized content, the consensus
score and the embedding id (overwritten with the payload value even when
absent). -/
def KnowledgePack.finalize (content : String) (consensusScore : Rat)
    (embeddingId : Option String) (now : String) :
    Option KnowledgePackState → KPOut KnowledgePackState
  | none => ⟨Except.error "Knowledge pack not initialized", none, false⟩
  | some s =>
    let st := { s with
      content := content,
      consensusScore := consensusScore,
      embeddingId := embeddingId,
      updatedAt := now }
    ⟨Except.ok st, some st, true⟩

/-- The Partial payload accepted by KnowledgePack.update (its updatedAt,
if any, is immediately overwritten by the stamped one, so it is not
carried). -/
structure KPUpdate where
  id : Option String
  title : Option String
  description : Option String
  content : Option String
  councilSessionId : Option String
  createdBy : Option String
  embeddingId : Option String
  tags : Option (List String)
  isPublic : Option Bool
  consensusScore : Option Rat
  sourceFiles : Option (List String)
  sourceArtifacts : Option (List String)
  entries : Option (List KPEntry)
  createdAt : Option String
deriving DecidableEq

/-- KnowledgePack.update: shallow spread merge of the payload over the
snapshot, then stamp updatedAt. -/
def KnowledgePack.update (u : KPUpdate) (now : String) :
    Option KnowledgePackState → KPOut KnowledgePackState
  | none => ⟨Except.error "Knowledge pack not initialized", none, false⟩
  | some s =>
    let st : KnowledgePackState :=
      { id := u.id.getD s.id
        title := u.title.getD s.title
        description := u.description.getD s.description
        content := u.content.getD s.content
        councilSessionId := u.councilSessionId.getD s.councilSessionId
        createdBy := u.createdBy.getD s.createdBy
        embeddingId := match u.embeddingId with | some v => some v | none => s.embeddingId
        tags := match u.tags with | some v => some v | none => s.tags
        isPublic := match u.isPublic with | some v => some v | none => s.isPublic
        consensusScore := u.consensusScore.getD s.consensusScore
        sourceFiles := match u.sourceFiles with | some v => some v | none => s.sourceFiles
        sourceArtifacts :=
          match u.sourceArtifacts with | some v => some v | none => s.sourceArtifacts
        entries := u.entries.getD s.entries
        createdAt := u.createdAt.getD s.createdAt
        updatedAt := now }
    ⟨Except.ok st, some st, true⟩

/-- The Partial entry payload accepted by KnowledgePack.updateEntry (its
timestamp, if any, is immediately overwritten by the stamped one). -/
structure KPEntryUpdate where
  content : Option String
  agentId : Option String
  score : Option Rat
  sources : Option (List String)
deriving DecidableEq

/-- KnowledgePack.updateEntry: bounds-checked in-place merge of one
entry; an out-of-range index is an error that performs no write. -/
def KnowledgePack.updateEntry (entryIndex : Int) (u : KPEntryUpdate) (now : String) :
    Option KnowledgePackState → KPOut KPEntry
  | none => ⟨Except.error "Knowledge pack not initialized", none, false⟩
  | some s =>
    if entryIndex < 0 ∨ (s.entries.length : Int) ≤ entryIndex then
      ⟨Except.error "Invalid entry index", some s, false⟩
    else
      match s.entries.get? entryIndex.toNat with
      | none => ⟨Except.error "Invalid entry index", some s, false⟩
      | some old =>
        let newEntry : KPEntry :=
          { content := u.content.getD old.content
            agentId := u.agentId.getD old.agentId
            score := u.score.getD old.score
            sources := u.sources.getD old.sources
            timestamp := now }
        let st := { s with entries := s.entries.set entryIndex.toNat newEntry, updatedAt := now }
        ⟨Except.ok newEntry, some st, true⟩

/-- KnowledgePack.removeEntry: bounds-checked splice of one entry. -/
def KnowledgePack.removeEntry (entryIndex : Int) (now : String) :
    Option KnowledgePackState → KPOut KPEntry
  | none => ⟨Except.error "Knowledge pack not initialized", none, false⟩
  | some s =>
    if entryIndex < 0 ∨ (s.entries.length : Int) ≤ entryIndex then
      ⟨Except.error "Invalid entry index", some s, false⟩
    else
      match s.entries.get? entryIndex.toNat with
      | none => ⟨Except.error "Invalid entry index", some s, false⟩
      | some removed =>
        let st := { s with entries := s.entries.eraseIdx entryIndex.toNat, updatedAt := now }
        ⟨Except.ok removed, some st, true⟩

/-- JS Set insertion order: keep the first occurrence of each element. -/
def jsSetDedup (seen : List String) : List String → List String
  | [] => []
  | x :: xs => if seen.contains x then jsSetDedup seen xs else x :: jsSetDedup (x :: seen) xs

/-- KnowledgePack.addTags: set union into tags. -/
def KnowledgePack.addTags (tags : List String) (now : String) :
    Option KnowledgePackState → KPOut (List String)
  | none => ⟨Except.error "Knowledge pack not initialized", none, false⟩
  | some s =>
    let newTags := jsSetDedup [] (s.tags.getD [] ++ tags)
    let st := { s with tags := some newTags, updatedAt := now }
    ⟨Except.ok newTags, some st, true⟩

/-- KnowledgePack.removeTags: when the tags field is absent, respond
with the empty list without touching the state or the storage; otherwise
filter the tags, stamp updatedAt and write. -/
def KnowledgePack.removeTags (tags : List String) (now : String) :
    Option KnowledgePackState → KPOut (List String)
  | none => ⟨Except.error "Knowledge pack not initialized", none, false⟩
  | some s =>
    match s.tags with
    | none => ⟨Except.ok [], some s, false⟩
    | some ts =>
      let newTags := ts.filter (fun t => !(tags.contains t))
      let st := { s with tags := some newTags, updatedAt := now }
      ⟨Except.ok newTags, some st, true⟩

/-- KnowledgePack.addSources: set union into sourceFiles and
sourceArtifacts (each only when its list is nonempty), then stamp and
write unconditionally. -/
def KnowledgePack.addSources (files artifacts : List String) (now : String) :
    Option KnowledgePackState → KPOut (Option (List String) × Option (List String))
  | none => ⟨Except.error "Knowledge pack not initialized", none, false⟩
  | some s =>
    let s1 :=
      if 0 < files.length then
        { s with sourceFiles := some (jsSetDedup [] (s.sourceFiles.getD [] ++ files)) }
      else s
    let s2 :=
      if 0 < artifacts.length then
        { s1 with
          sourceArtifacts := some (jsSetDedup [] (s1.sourceArtifacts.getD [] ++ artifacts)) }
      else s1
    let st := { s2 with updatedAt := now }
    ⟨Except.ok (st.sourceFiles, st.sourceArtifacts), some st, true⟩

/-- KnowledgePack.updateConsensusScore. -/
def KnowledgePack.updateConsensusScore (score : Rat) (now : String) :
    Option KnowledgePackState → KPOut Rat
  | none => ⟨Except.error "Knowledge pack not initialized", none, false⟩
  | some s =>
    let st := { s with consensusScore := score, updatedAt := now }
    ⟨Except.ok score, some st, true⟩

/-- The statistics payload of KnowledgePack.getStats. -/
structure KPStats where
  entryCount : Nat
  averageScore : Rat
  sourceFileCount : Nat
  sourceArtifactCount : Nat
  tagCount : Nat
  lastUpdated : String
  createdAt : String
deriving DecidableEq

/-- KnowledgePack.getStats: entry count and mean score, with the empty
entry count replaced by denominator 1 (entries.length or-default). -/
def KnowledgePack.getStats : Option KnowledgePackState → Except String KPStats
  | none => Except.error "Knowledge pack not initialized"
  | some s =>
    Except.ok
      { entryCount := s.entries.length
        averageScore := (s.entries.foldl (fun sum e => sum + e.score) 0) /
          (((if s.entries.length == 0 then 1 else s.entries.length) : Nat) : Rat)
        sourceFileCount := (s.sourceFiles.getD []).length
        sourceArtifactCount := (s.sourceArtifacts.getD []).length
        tagCount := (s.tags.getD []).length
        lastUpdated := s.updatedAt
        createdAt := s.createdAt }

/-! # Theorems -/

/-! ## C6: registry last-writer-wins -/

/-- A finite sequence of register calls. -/
def registerAll (reg : ToolRegistry) (ts : List ToolDefinition) : ToolRegistry :=
  ts.foldl ToolRegistry.register reg

/-- The tool supplied by the last registration in ts for a given id. -/
def lastRegistered (ts : List ToolDefinition) (id : String) : Option ToolDefinition :=
  List.find? (fun t => t.id == id) ts.reverse

lemma find?_key_map_overwrite (l : List (String × ToolDefinition)) (k : String)
    (v : ToolDefinition) :
    List.find? (fun p => p.1 == k) (l.map (fun p => if p.1 == k then (k, v) else p)) =
      match List.find? (fun p => p.1 == k) l with
      | some _ => some (k, v)
      | none => none := by
  induction l with
  | nil => rfl
  | cons hd tl ih =>
    by_cases h : hd.1 = k
    · rw [List.map_cons, if_pos (by simpa using h),
        List.find?_cons_of_pos _ (by simp),
        List.find?_cons_of_pos _ (by simpa using h)]
    · rw [List.map_cons, if_neg (by simpa using h),
        List.find?_cons_of_neg _ (by simpa using h),
        List.find?_cons_of_neg _ (by simpa using h)]
      exact ih

lemma find?_key_map_other (l : List (String × ToolDefinition)) (k k' : String)
    (v : ToolDefinition) (hne : k' ≠ k) :
    List.find? (fun p => p.1 == k') (l.map (fun p => if p.1 == k then (k, v) else p)) =
      List.find? (fun p => p.1 == k') l := by
  induction l with
  | nil => rfl
  | cons hd tl ih =>
    by_cases h : hd.1 = k
    · rw [List.map_cons, if_pos (by simpa using h),
        List.find?_cons_of_neg _ (by simpa using Ne.symm hne),
        List.find?_cons_of_neg _ (by simp only [h]; simpa using Ne.symm hne)]
      exact ih
    · rw [List.map_cons, if_neg (by simpa using h)]
      by_cases hk : hd.1 = k'
      · rw [List.find?_cons_of_pos _ (by simpa using hk),
          List.find?_cons_of_pos _ (by simpa using hk)]
      · rw [List.find?_cons_of_neg _ (by simpa using hk),
          List.find?_cons_of_neg _ (by simpa using hk)]
        exact ih

lemma get_register_self (reg : ToolRegistry) (t : ToolDefinition) :
    ToolRegistry.get (ToolRegistry.register reg t) t.id = some t := by
  unfold ToolRegistry.get ToolRegistry.register
  by_cases h : reg.any (fun p => p.1 == t.id)
  · rw [if_pos h, find?_key_map_overwrite]
    have hs : (List.find? (fun p => p.1 == t.id) reg).isSome := by
      rw [List.find?_isSome]
      obtain ⟨p, hp, hpk⟩ := List.any_eq_true.mp h
      exact ⟨p, hp, hpk⟩
    cases hf : List.find? (fun p => p.1 == t.id) reg with
    | none => rw [hf] at hs; simp at hs
    | some p => simp
  · rw [if_neg h, List.find?_append]
    have hnone : List.find? (fun p => p.1 == t.id) reg = none := by
      rw [List.find?_eq_none]
      intro p hp hpk
      exact h (List.any_eq_true.mpr ⟨p, hp, hpk⟩)
    rw [hnone]
    simp

lemma get_register_other (reg : ToolRegistry) (t : ToolDefinition) (id : String)
    (hne : id ≠ t.id) :
    ToolRegistry.get (ToolRegistry.register reg t) id = ToolRegistry.get reg id := by
  unfold ToolRegistry.get ToolRegistry.register
  by_cases h : reg.any (fun p => p.1 == t.id)
  · rw [if_pos h, find?_key_map_other _ _ _ _ hne]
  · rw [if_neg h, List.find?_append]
    cases hf : List.find? (fun p => p.1 == id) reg with
    | none => simp [Option.or, show (t.id == id) = false by simpa using Ne.symm hne]
    | some p => simp [Option.or]

/-- C6: for every sequence of register calls and every id, get(id)
afterwards returns exactly the tool supplied by the last registration
for that id (register is total, so a duplicate id never errors). -/
theorem toolRegistry_last_writer_wins (reg : ToolRegistry) (ts : List ToolDefinition)
    (id : String) (t : ToolDefinition) (hlast : lastRegistered ts id = some t) :
    ToolRegistry.get (registerAll reg ts) id = some t := by
  induction ts using List.reverseRecOn generalizing reg with
  | nil => simp [lastRegistered] at hlast
  | append_singleton ts t0 ih =>
    rw [registerAll, List.foldl_append, List.foldl_cons, List.foldl_nil]
    unfold lastRegistered at hlast
    rw [List.reverse_append, List.reverse_singleton, List.singleton_append] at hlast
    by_cases h0 : t0.id = id
    · rw [List.find?_cons_of_pos _ (by simpa using h0)] at hlast
      have ht : t0 = t := by injection hlast
      rw [← ht, ← h0]
      exact get_register_self _ t0
    · rw [List.find?_cons_of_neg _ (by simpa using h0)] at hlast
      rw [get_register_other _ _ _ (fun hh => h0 hh.symm)]
      exact ih reg hlast

/-- An earlier registration under the id "calc". -/
def c6ToolA : ToolDefinition where
  id := "calc"
  name := "Calculator A"
  description := "first registration"
  paramsDesc := ""
  validate := fun j => Except.ok j
  execute := fun _ => ExecOutcome.ok Json.null false

/-- A later registration under the same id "calc". -/
def c6ToolB : ToolDefinition where
  id := "calc"
  name := "Calculator B"
  description := "second registration"
  paramsDesc := ""
  validate := fun j => Except.ok j
  execute := fun _ => ExecOutcome.ok (Json.bool true) false

/-- Witness for C6: after registering two tools under the same id, get
returns the second. -/
theorem toolRegistry_last_writer_wins_witness :
    ToolRegistry.get (registerAll [] [c6ToolA, c6ToolB]) "calc" = some c6ToolB :=
  toolRegistry_last_writer_wins [] [c6ToolA, c6ToolB] "calc" c6ToolB (by rfl)

/-! ## C8: getStats average score -/

lemma foldl_score_add (l : List KPEntry) (a : Rat) :
    l.foldl (fun sum e => sum + e.score) a = a + (l.map KPEntry.score).sum := by
  induction l generalizing a with
  | nil => simp
  | cons hd tl ih =>
    rw [List.foldl_cons, ih, List.map_cons, List.sum_cons]
    ring

/-- C8: getStats().averageScore is 0 for an empty entry list (the
denominator is the or-defaulted 1, never 0) and the arithmetic mean of
the scores otherwise. -/
theorem kp_getStats_averageScore (s : KnowledgePackState) :
    (s.entries = [] →
      KnowledgePack.getStats (some s) =
        Except.ok { entryCount := 0, averageScore := 0,
                    sourceFileCount := (s.sourceFiles.getD []).length,
                    sourceArtifactCount := (s.sourceArtifacts.getD []).length,
                    tagCount := (s.tags.getD []).length,
                    lastUpdated := s.updatedAt, createdAt := s.createdAt }) ∧
    (s.entries ≠ [] →
      ∃ st, KnowledgePack.getStats (some s) = Except.ok st ∧
        st.averageScore = (s.entries.map KPEntry.score).sum / (s.entries.length : Rat)) := by
  constructor
  · intro h
    simp only [KnowledgePack.getStats, h, List.foldl_nil, List.length_nil]
    norm_num
  · intro h
    refine ⟨_, rfl, ?_⟩
    have hlen : s.entries.length ≠ 0 := fun hc => h (List.length_eq_zero.mp hc)
    simp only [KnowledgePack.getStats]
    rw [foldl_score_add, if_neg (by simpa using hlen)]
    norm_num

/-- A concrete knowledge pack with entry scores 2, 4 and 6. -/
def c8Pack : KnowledgePackState :=
  { id := "p1", title := "T", description := "", content := "", councilSessionId := "s1",
    createdBy := "u1", embeddingId := none, tags := none, isPublic := none,
    consensusScore := 0, sourceFiles := none, sourceArtifacts := none,
    entries :=
      [ { content := "a", agentId := "a1", score := 2, sources := [], timestamp := "t1" },
        { content := "b", agentId := "a2", score := 4, sources := [], timestamp := "t2" },
        { content := "c", agentId := "a3", score := 6, sources := [], timestamp := "t3" } ],
    createdAt := "t0", updatedAt := "t3" }

/-- Witness for C8: scores [2, 4, 6] average to 4. -/
theorem kp_getStats_averageScore_witness :
    ∃ st, KnowledgePack.getStats (some c8Pack) = Except.ok st ∧ st.averageScore = 4 := by
  obtain ⟨st, hst, havg⟩ := (kp_getStats_averageScore c8Pack).2 (by decide)
  refine ⟨st, hst, ?_⟩
  rw [havg]
  norm_num [c8Pack]

/-! ## C2 and C3: council session stage and round evolution -/

/-- An initialize payload with maxRounds 3. -/
def initPayload3 : CouncilInit :=
  { id := some "s1", question := some "q", maxRounds := some 3, createdBy := some "u1",
    agentIds := some ["a1", "a2"], attachedFiles := none, attachedArtifacts := none }

/-- The session right after initialize with maxRounds 3. -/
def initSession3 : CouncilSessionState :=
  CouncilSession.initSession initPayload3 "uuid-1" "t0" none

/-- The same session after complete. -/
def completedSession3 : Option CouncilSessionState :=
  councilStep (CouncilOp.complete "yes" 8 9) "t1" (some initSession3)

/-- Counterexample for C2: from the completed stage, addDeliberation
moves the stage backward to deliberating and synthesize moves it
backward to synthesizing_round, so completed is not terminal. -/
theorem council_stage_backward_from_completed :
    completedSession3.map CouncilSessionState.stage = some Stage.completed ∧
    (councilStep (CouncilOp.deliberate "a1" "late remark") "t2" completedSession3).map
      CouncilSessionState.stage = some Stage.deliberating ∧
    (councilStep (CouncilOp.synthesize 1) "t2" completedSession3).map
      CouncilSessionState.stage = some Stage.synthesizing_round ∧
    stageRank Stage.deliberating < stageRank Stage.completed ∧
    stageRank Stage.synthesizing_round < stageRank Stage.completed :=
  ⟨rfl, rfl, rfl, by decide, by decide⟩

/-- C2 (amended): every operation on an initialized session keeps the
stage rank non-decreasing along initializing < deliberating ≤
synthesizing_round/synthesizing_final < completed, except that
addDeliberation always forces deliberating (a backward move exactly when
the stage was synthesizing_round, synthesizing_final or completed) and
synthesize always forces a synthesizing stage (a backward move exactly
when the stage was completed); no operation ever produces failed. -/
theorem council_stage_step (s : CouncilSessionState) (now : String) :
    (∀ d cs cl s', councilStep (CouncilOp.complete d cs cl) now (some s) = some s' →
      s'.stage = Stage.completed ∧ stageRank s.stage ≤ stageRank s'.stage) ∧
    (∀ a c s', councilStep (CouncilOp.deliberate a c) now (some s) = some s' →
      s'.stage = Stage.deliberating ∧
        (stageRank s'.stage < stageRank s.stage ↔
          s.stage = Stage.synthesizing_round ∨ s.stage = Stage.synthesizing_final ∨
            s.stage = Stage.completed)) ∧
    (∀ r s', councilStep (CouncilOp.synthesize r) now (some s) = some s' →
      (s'.stage = Stage.synthesizing_round ∨ s'.stage = Stage.synthesizing_final) ∧
        (stageRank s'.stage < stageRank s.stage ↔ s.stage = Stage.completed)) ∧
    (∀ op s', councilStep op now (some s) = some s' → s'.stage ≠ Stage.failed) := by
  refine ⟨?_, ?_, ?_, ?_⟩
  · intro d cs cl s' h
    simp only [councilStep, CouncilSession.complete] at h
    obtain rfl := Option.some.inj h
    exact ⟨rfl, by cases hs : s.stage <;> simp [stageRank]⟩
  · intro a c s' h
    simp only [councilStep, CouncilSession.addDeliberation] at h
    obtain rfl := Option.some.inj h
    refine ⟨rfl, ?_⟩
    cases hs : s.stage <;> simp [stageRank, hs]
  · intro r s' h
    simp only [councilStep, CouncilSession.synthesize] at h
    obtain rfl := Option.some.inj h
    by_cases hr : s.maxRounds ≤ r
    · refine ⟨Or.inr (by simp [hr]), ?_⟩
      cases hs : s.stage <;> simp [stageRank, hs, hr]
    · refine ⟨Or.inl (by simp [hr]), ?_⟩
      cases hs : s.stage <;> simp [stageRank, hs, hr]
  · intro op s' h
    cases op with
    | init data uuid =>
      simp only [councilStep] at h
      obtain rfl := Option.some.inj h
      simp [CouncilSession.initSession]
    | deliberate a c =>
      simp only [councilStep, CouncilSession.addDeliberation] at h
      obtain rfl := Option.some.inj h
      simp
    | synthesize r =>
      simp only [councilStep, CouncilSession.synthesize] at h
      obtain rfl := Option.some.inj h
      by_cases hr : s.maxRounds ≤ r <;> simp [hr]
    | complete d cs cl =>
      simp only [councilStep, CouncilSession.complete] at h
      obtain rfl := Option.some.inj h
      simp

/-- Witness for C2: complete on the freshly initialized session raises
the stage rank to completed. -/
theorem council_stage_step_witness :
    ∃ s', councilStep (CouncilOp.complete "d" 1 2) "t1" (some initSession3) = some s' ∧
      s'.stage = Stage.completed ∧ stageRank initSession3.stage ≤ stageRank s'.stage := by
  obtain ⟨h1, h2⟩ := (council_stage_step initSession3 "t1").1 "d" 1 2 _ rfl
  exact ⟨_, rfl, h1, h2⟩

/-- Counterexample for C3: synthesize(5) on a maxRounds-3 session drives
currentRound to 5, strictly above maxRounds, and a later synthesize(1)
drives it back down to 1, so currentRound is neither bounded by
maxRounds nor non-decreasing. -/
theorem council_currentRound_unconstrained :
    (councilStep (CouncilOp.synthesize 5) "t1" (some initSession3)).map
      CouncilSessionState.currentRound = some 5 ∧
    (councilStep (CouncilOp.synthesize 5) "t1" (some initSession3)).map
      CouncilSessionState.maxRounds = some 3 ∧
    ((3 : Int) < 5) ∧
    (councilStep (CouncilOp.synthesize 1) "t2"
        (councilStep (CouncilOp.synthesize 5) "t1" (some initSession3))).map
      CouncilSessionState.currentRound = some 1 ∧
    ((1 : Int) < 5) :=
  ⟨rfl, rfl, by decide, rfl, by decide⟩

/-- C3 (amended): currentRound is written only by synthesize, which sets
it to exactly the supplied round with no monotonicity or maxRounds
bound, and by initialize, which resets it to 0; addDeliberation and
complete leave it unchanged, and addDeliberation stamps the appended
entry with the currentRound at the moment of insertion (so every
entry's round is ≤ currentRound when inserted). -/
theorem council_currentRound_step (s : CouncilSessionState) (now : String) :
    (∀ a c s', councilStep (CouncilOp.deliberate a c) now (some s) = some s' →
      s'.currentRound = s.currentRound ∧
      s'.deliberations = s.deliberations ++
        [{ round := s.currentRound, agentId := a, content := c, timestamp := now }]) ∧
    (∀ r s', councilStep (CouncilOp.synthesize r) now (some s) = some s' →
      s'.currentRound = r ∧ s'.deliberations = s.deliberations) ∧
    (∀ d cs cl s', councilStep (CouncilOp.complete d cs cl) now (some s) = some s' →
      s'.currentRound = s.currentRound ∧ s'.deliberations = s.deliberations) ∧
    (∀ data uuid s', councilStep (CouncilOp.init data uuid) now (some s) = some s' →
      s'.currentRound = 0 ∧ s'.deliberations = []) := by
  refine ⟨?_, ?_, ?_, ?_⟩
  · intro a c s' h
    simp only [councilStep, CouncilSession.addDeliberation] at h
    obtain rfl := Option.some.inj h
    exact ⟨rfl, rfl⟩
  · intro r s' h
    simp only [councilStep, CouncilSession.synthesize] at h
    obtain rfl := Option.some.inj h
    exact ⟨rfl, rfl⟩
  · intro d cs cl s' h
    simp only [councilStep, CouncilSession.complete] at h
    obtain rfl := Option.some.inj h
    exact ⟨rfl, rfl⟩
  · intro data uuid s' h
    simp only [councilStep] at h
    obtain rfl := Option.some.inj h
    exact ⟨rfl, rfl⟩

/-- Witness for C3: a deliberation inserted right after initialize is
stamped with round 0, the currentRound at that moment. -/
theorem council_currentRound_step_witness :
    ∃ s', councilStep (CouncilOp.deliberate "a1" "view") "t1" (some initSession3) = some s' ∧
      s'.currentRound = initSession3.currentRound ∧
      s'.deliberations = initSession3.deliberations ++
        [{ round := initSession3.currentRound, agentId := "a1", content := "view",
           timestamp := "t1" }] := by
  obtain ⟨h1, h2⟩ := (council_currentRound_step initSession3 "t1").1 "a1" "view" _ rfl
  exact ⟨_, rfl, h1, h2⟩

/-! ## C7: finalize-guarded fields -/

/-- A create payload with only identity fields. -/
def kpCreateBasic : KPCreate :=
  { id := some "p1", title := some "T", description := none, councilSessionId := some "s1",
    createdBy := some "u1", tags := none, isPublic := none, sourceFiles := none,
    sourceArtifacts := none }

/-- The pack snapshot right after create. -/
def kpCreated : Option KnowledgePackState :=
  (KnowledgePack.create kpCreateBasic "uuid-2" "t0" none).state

/-- An update payload that writes the finalize-guarded fields. -/
def kpUpdatePayload : KPUpdate :=
  { id := none, title := none, description := none,
    content := some "written before finalize", councilSessionId := none, createdBy := none,
    embeddingId := some "emb-1", tags := none, isPublic := none, consensusScore := some 5,
    sourceFiles := none, sourceArtifacts := none, entries := none, createdAt := none }

/-- Counterexample for C7: with no finalize anywhere, update makes
content non-empty, consensusScore non-zero and embeddingId present, and
updateConsensusScore alone also makes consensusScore non-zero. -/
theorem kp_update_breaks_finalize_guard :
    kpCreated.map KnowledgePackState.content = some "" ∧
    kpCreated.map KnowledgePackState.consensusScore = some 0 ∧
    kpCreated.map KnowledgePackState.embeddingId = some none ∧
    (KnowledgePack.update kpUpdatePayload "t1" kpCreated).state.map
      KnowledgePackState.content = some "written before finalize" ∧
    (KnowledgePack.update kpUpdatePayload "t1" kpCreated).state.map
      KnowledgePackState.consensusScore = some 5 ∧
    (KnowledgePack.update kpUpdatePayload "t1" kpCreated).state.map
      KnowledgePackState.embeddingId = some (some "emb-1") ∧
    (KnowledgePack.updateConsensusScore 7 "t1" kpCreated).state.map
      KnowledgePackState.consensusScore = some 7 :=
  ⟨rfl, rfl, rfl, rfl, rfl, rfl, rfl⟩

/-- C7 (amended): after create, content is empty, consensusScore is zero
and embeddingId is absent, and these three fields are changed only by
finalize, update and updateConsensusScore (the last only the score):
addEntry, updateEntry, removeEntry, addTags, removeTags and addSources
all preserve them. -/
theorem kp_finalize_fields_frame (s : KnowledgePackState) (now : String) :
    (∀ data uuid st', (KnowledgePack.create data uuid now (some s)).state = some st' →
      st'.content = "" ∧ st'.consensusScore = 0 ∧ st'.embeddingId = none) ∧
    (∀ c a sc src st', (KnowledgePack.addEntry c a sc src now (some s)).state = some st' →
      st'.content = s.content ∧ st'.consensusScore = s.consensusScore ∧
        st'.embeddingId = s.embeddingId) ∧
    (∀ i u st', (KnowledgePack.updateEntry i u now (some s)).state = some st' →
      st'.content = s.content ∧ st'.consensusScore = s.consensusScore ∧
        st'.embeddingId = s.embeddingId) ∧
    (∀ i st', (KnowledgePack.removeEntry i now (some s)).state = some st' →
      st'.content = s.content ∧ st'.consensusScore = s.consensusScore ∧
        st'.embeddingId = s.embeddingId) ∧
    (∀ ts st', (KnowledgePack.addTags ts now (some s)).state = some st' →
      st'.content = s.content ∧ st'.consensusScore = s.consensusScore ∧
        st'.embeddingId = s.embeddingId) ∧
    (∀ ts st', (KnowledgePack.removeTags ts now (some s)).state = some st' →
      st'.content = s.content ∧ st'.consensusScore = s.consensusScore ∧
        st'.embeddingId = s.embeddingId) ∧
    (∀ fs arts st', (KnowledgePack.addSources fs arts now (some s)).state = some st' →
      st'.content = s.content ∧ st'.consensusScore = s.consensusScore ∧
        st'.embeddingId = s.embeddingId) := by
  refine ⟨?_, ?_, ?_, ?_, ?_, ?_, ?_⟩
  · intro data uuid st' h
    obtain rfl := Option.some.inj h
    exact ⟨rfl, rfl, rfl⟩
  · intro c a sc src st' h
    obtain rfl := Option.some.inj h
    exact ⟨rfl, rfl, rfl⟩
  · intro i u st' h
    by_cases hc : i < 0 ∨ (s.entries.length : Int) ≤ i
    · simp only [KnowledgePack.updateEntry, if_pos hc] at h
      obtain rfl := Option.some.inj h
      exact ⟨rfl, rfl, rfl⟩
    · simp only [KnowledgePack.updateEntry, if_neg hc] at h
      cases hg : s.entries.get? i.toNat with
      | none =>
        rw [hg] at h
        obtain rfl := Option.some.inj h
        exact ⟨rfl, rfl, rfl⟩
      | some old =>
        rw [hg] at h
        obtain rfl := Option.some.inj h
        exact ⟨rfl, rfl, rfl⟩
  · intro i st' h
    by_cases hc : i < 0 ∨ (s.entries.length : Int) ≤ i
    · simp only [KnowledgePack.removeEntry, if_pos hc] at h
      obtain rfl := Option.some.inj h
      exact ⟨rfl, rfl, rfl⟩
    · simp only [KnowledgePack.removeEntry, if_neg hc] at h
      cases hg : s.entries.get? i.toNat with
      | none =>
        rw [hg] at h
        obtain rfl := Option.some.inj h
        exact ⟨rfl, rfl, rfl⟩
      | some old =>
        rw [hg] at h
        obtain rfl := Option.some.inj h
        exact ⟨rfl, rfl, rfl⟩
  · intro ts st' h
    obtain rfl := Option.some.inj h
    exact ⟨rfl, rfl, rfl⟩
  · intro ts st' h
    cases hg : s.tags with
    | none =>
      simp only [KnowledgePack.removeTags, hg] at h
      obtain rfl := Option.some.inj h
      exact ⟨rfl, rfl, rfl⟩
    | some ts0 =>
      simp only [KnowledgePack.removeTags, hg] at h
      obtain rfl := Option.some.inj h
      exact ⟨rfl, rfl, rfl⟩
  · intro fs arts st' h
    simp only [KnowledgePack.addSources] at h
    obtain rfl := Option.some.inj h
    by_cases h1 : 0 < fs.length <;> by_cases h2 : 0 < arts.length <;>
      simp [h1, h2]

/-- The created pack snapshot as a plain state. -/
def kpCreatedState : KnowledgePackState :=
  (KnowledgePack.create kpCreateBasic "uuid-2" "t0" none).state.get (by rfl)

/-- Witness for C7: addEntry on the freshly created pack leaves the
three finalize fields untouched. -/
theorem kp_finalize_fields_frame_witness :
    ∃ st', (KnowledgePack.addEntry "x" "a1" 5 ["f1"] "t1" (some kpCreatedState)).state =
        some st' ∧
      st'.content = kpCreatedState.content ∧
      st'.consensusScore = kpCreatedState.consensusScore ∧
      st'.embeddingId = kpCreatedState.embeddingId := by
  obtain ⟨h1, h2, h3⟩ :=
    (kp_finalize_fields_frame kpCreatedState "t1").2.1 "x" "a1" 5 ["f1"] _ rfl
  exact ⟨_, rfl, h1, h2, h3⟩

/-! ## C9: removeTags with absent tags writes nothing -/

/-- C9: removeTags on a pack whose tags field is absent responds with
the empty list, leaves the entire state unchanged (updatedAt is not
restamped) and performs no storage write, while every other mutating
operation that is not rejected writes the snapshot and stamps updatedAt
with the operation time (removeTags itself included once tags is
present). -/
theorem kp_removeTags_absent_no_write (s : KnowledgePackState) (now : String) :
    (s.tags = none → ∀ ts,
      (KnowledgePack.removeTags ts now (some s)).response = Except.ok [] ∧
      (KnowledgePack.removeTags ts now (some s)).state = some s ∧
      (KnowledgePack.removeTags ts now (some s)).wrote = false) ∧
    (∀ data uuid,
      (KnowledgePack.create data uuid now (some s)).wrote = true ∧
      (KnowledgePack.create data uuid now (some s)).state.map KnowledgePackState.updatedAt =
        some now) ∧
    (∀ c a sc src,
      (KnowledgePack.addEntry c a sc src now (some s)).wrote = true ∧
      (KnowledgePack.addEntry c a sc src now (some s)).state.map KnowledgePackState.updatedAt =
        some now) ∧
    (∀ c cs emb,
      (KnowledgePack.finalize c cs emb now (some s)).wrote = true ∧
      (KnowledgePack.finalize c cs emb now (some s)).state.map KnowledgePackState.updatedAt =
        some now) ∧
    (∀ u,
      (KnowledgePack.update u now (some s)).wrote = true ∧
      (KnowledgePack.update u now (some s)).state.map KnowledgePackState.updatedAt = some now) ∧
    (∀ i u, ¬(i < 0 ∨ (s.entries.length : Int) ≤ i) →
      (KnowledgePack.updateEntry i u now (some s)).wrote = true ∧
      (KnowledgePack.updateEntry i u now (some s)).state.map KnowledgePackState.updatedAt =
        some now) ∧
    (∀ i, ¬(i < 0 ∨ (s.entries.length : Int) ≤ i) →
      (KnowledgePack.removeEntry i now (some s)).wrote = true ∧
      (KnowledgePack.removeEntry i now (some s)).state.map KnowledgePackState.updatedAt =
        some now) ∧
    (∀ ts,
      (KnowledgePack.addTags ts now (some s)).wrote = true ∧
      (KnowledgePack.addTags ts now (some s)).state.map KnowledgePackState.updatedAt =
        some now) ∧
    (∀ ts ts0, s.tags = some ts0 →
      (KnowledgePack.removeTags ts now (some s)).wrote = true ∧
      (KnowledgePack.removeTags ts now (some s)).state.map KnowledgePackState.updatedAt =
        some now) ∧
    (∀ fs arts,
      (KnowledgePack.addSources fs arts now (some s)).wrote = true ∧
      (KnowledgePack.addSources fs arts now (some s)).state.map KnowledgePackState.updatedAt =
        some now) ∧
    (∀ sc,
      (KnowledgePack.updateConsensusScore sc now (some s)).wrote = true ∧
      (KnowledgePack.updateConsensusScore sc now (some s)).state.map
        KnowledgePackState.updatedAt = some now) := by
  refine ⟨?_, ?_, ?_, ?_, ?_, ?_, ?_, ?_, ?_, ?_, ?_⟩
  · intro hnone ts
    simp [KnowledgePack.removeTags, hnone]
  · intro data uuid
    exact ⟨rfl, rfl⟩
  · intro c a sc src
    exact ⟨rfl, rfl⟩
  · intro c cs emb
    exact ⟨rfl, rfl⟩
  · intro u
    exact ⟨rfl, rfl⟩
  · intro i u hin
    have hlt : i.toNat < s.entries.length := by omega
    cases hg : s.entries[i.toNat]? with
    | none =>
      rw [List.getElem?_eq_none_iff] at hg
      omega
    | some old =>
      simp [KnowledgePack.updateEntry, if_neg hin, hg]
  · intro i hin
    have hlt : i.toNat < s.entries.length := by omega
    cases hg : s.entries[i.toNat]? with
    | none =>
      rw [List.getElem?_eq_none_iff] at hg
      omega
    | some old =>
      simp [KnowledgePack.removeEntry, if_neg hin, hg]
  · intro ts
    exact ⟨rfl, rfl⟩
  · intro ts ts0 htags
    simp [KnowledgePack.removeTags, htags]
  · intro fs arts
    exact ⟨rfl, rfl⟩
  · intro sc
    exact ⟨rfl, rfl⟩

/-- Witness for C9: on the freshly created pack (whose tags field is
absent) removeTags writes nothing and changes nothing, while addEntry
writes and restamps updatedAt. -/
theorem kp_removeTags_absent_no_write_witness :
    ((KnowledgePack.removeTags ["x"] "t5" (some kpCreatedState)).response = Except.ok [] ∧
      (KnowledgePack.removeTags ["x"] "t5" (some kpCreatedState)).state = some kpCreatedState ∧
      (KnowledgePack.removeTags ["x"] "t5" (some kpCreatedState)).wrote = false) ∧
    ((KnowledgePack.addEntry "x" "a" 1 [] "t5" (some kpCreatedState)).wrote = true ∧
      (KnowledgePack.addEntry "x" "a" 1 [] "t5" (some kpCreatedState)).state.map
        KnowledgePackState.updatedAt = some "t5") := by
  refine ⟨(kp_removeTags_absent_no_write kpCreatedState "t5").1 (by rfl) ["x"], ?_⟩
  exact (kp_removeTags_absent_no_write kpCreatedState "t5").2.2.1 "x" "a" 1 []

/-! ## Agent loop: branch lemmas -/

lemma agentBody_parse_none (reg : ToolRegistry) (llm : List Message → String) (sys : String)
    (acc : RunAcc)
    (h : Agent.parseToolCall (llm (preparedMessages sys acc.messages)).data = none) :
    agentBody reg llm sys acc =
      ({ acc with
          iterations := acc.iterations + 1,
          fragments := acc.fragments ++ [llm (preparedMessages sys acc.messages)],
          messages := acc.messages ++
            [{ role := Role.assistant, content := llm (preparedMessages sys acc.messages) }] },
        true) := by
  simp only [agentBody, h]

lemma agentBody_unknown_tool (reg : ToolRegistry) (llm : List Message → String) (sys : String)
    (acc : RunAcc) (tc : ParsedToolCall)
    (h1 : Agent.parseToolCall (llm (preparedMessages sys acc.messages)).data = some tc)
    (h2 : registryGetJson reg tc.tool = none) :
    agentBody reg llm sys acc =
      ({ acc with
          iterations := acc.iterations + 1,
          fragments := (acc.fragments ++ [llm (preparedMessages sys acc.messages)]) ++
            ["\n\n[Error: Tool \x27" ++ jsTemplate tc.tool ++ "\x27 not found]"],
          messages := (acc.messages ++
              [{ role := Role.assistant, content := llm (preparedMessages sys acc.messages) }]) ++
            [{ role := Role.user,
               content := "Error: Tool \x27" ++ jsTemplate tc.tool ++
                 "\x27 not found. Available tools: " ++
                 joinSep ", " ((ToolRegistry.getAll reg).map (fun t => t.id)) }] },
        false) := by
  simp only [agentBody, h1, h2]

lemma agentBody_validation_error (reg : ToolRegistry) (llm : List Message → String)
    (sys : String) (acc : RunAcc) (tc : ParsedToolCall) (tool : ToolDefinition)
    (errs : List ZodIssue)
    (h1 : Agent.parseToolCall (llm (preparedMessages sys acc.messages)).data = some tc)
    (h2 : registryGetJson reg tc.tool = some tool)
    (h3 : tool.validate tc.parameters = Except.error errs) :
    agentBody reg llm sys acc =
      ({ acc with
          iterations := acc.iterations + 1,
          fragments := (acc.fragments ++ [llm (preparedMessages sys acc.messages)]) ++
            ["\n\n[Parameter Validation Error: " ++
              joinSep ", " (errs.map ZodIssue.render) ++ "]"],
          messages := (acc.messages ++
              [{ role := Role.assistant, content := llm (preparedMessages sys acc.messages) }]) ++
            [{ role := Role.user,
               content := "Parameter validation failed for tool \x27" ++ tool.id ++ "\x27: " ++
                 joinSep ", " (errs.map ZodIssue.render) }] },
        false) := by
  simp only [agentBody, h1, h2, h3]

lemma agentBody_finish_stop (reg : ToolRegistry) (llm : List Message → String) (sys : String)
    (acc : RunAcc) (tc : ParsedToolCall) (tool : ToolDefinition) (vp res : Json)
    (hstop : acc.shouldStop = false)
    (h1 : Agent.parseToolCall (llm (preparedMessages sys acc.messages)).data = some tc)
    (h2 : registryGetJson reg tc.tool = some tool)
    (h3 : tool.validate tc.parameters = Except.ok vp)
    (h4 : tool.execute vp = ExecOutcome.ok res true) :
    agentBody reg llm sys acc =
      ({ acc with
          iterations := acc.iterations + 1,
          fragments := (acc.fragments ++ [llm (preparedMessages sys acc.messages)]) ++
            [finishedFragment res],
          messages := acc.messages ++
            [{ role := Role.assistant, content := llm (preparedMessages sys acc.messages) }],
          toolCallEvents := acc.toolCallEvents ++ [(tool.id, vp)],
          toolResultEvents := acc.toolResultEvents ++ [(tool.id, res)],
          shouldStop := true },
        true) := by
  simp only [agentBody, h1, h2, h3, h4, hstop, Bool.false_or, if_pos]

/-! ## The fenced-block scanner on a well-formed leading block -/

/-- The opening of a json-tagged fenced block. -/
def fenceJsonOpen : List Char := fenceTicks ++ jsonLit ++ ['\n']

lemma firstIdxOf_nlFence_boundary (g post : List Char) (hg : '\n' ∉ g) :
    firstIdxOf nlFence (g ++ (nlFence ++ post)) = some g.length := by
  induction g with
  | nil =>
    rw [List.nil_append]
    show firstIdxOf nlFence ('\n' :: (fenceTicks ++ post)) = some 0
    rw [firstIdxOf, if_pos]
    exact List.isPrefixOf_iff_prefix.mpr ⟨post, by simp [nlFence]⟩
  | cons c g' ih =>
    have hc : ('\n' == c) = false := by
      simp only [beq_eq_false_iff_ne, ne_eq]
      exact fun hcc => hg (hcc ▸ List.mem_cons_self c g')
    rw [List.cons_append, firstIdxOf, if_neg (by simp [nlFence, List.isPrefixOf, hc]),
      ih (fun hm => hg (List.mem_cons_of_mem c hm))]
    rfl

lemma firstCodeBlock_json_wrap (g post : List Char) (hne : g ≠ [])
    (hws : jsWhitespace g.headI = false) (hnl : '\n' ∉ g) :
    firstCodeBlock (fenceJsonOpen ++ (g ++ (nlFence ++ post))) = some g := by
  obtain ⟨c, rest, rfl⟩ : ∃ c rest, g = c :: rest := by
    cases g with
    | nil => exact absurd rfl hne
    | cons c rest => exact ⟨c, rest, rfl⟩
  rw [List.headI_cons] at hws
  have h1 : List.isPrefixOf fenceTicks
      (fenceJsonOpen ++ ((c :: rest) ++ (nlFence ++ post))) = true := by
    simp [fenceJsonOpen, fenceTicks, jsonLit, List.isPrefixOf]
  have h2 : List.isPrefixOf jsonLit
      ((fenceJsonOpen ++ ((c :: rest) ++ (nlFence ++ post))).drop 3) = true := by
    simp [fenceJsonOpen, fenceTicks, jsonLit, List.isPrefixOf]
  have h3 : ((fenceJsonOpen ++ ((c :: rest) ++ (nlFence ++ post))).drop 3).drop 4 =
      '\n' :: ((c :: rest) ++ (nlFence ++ post)) := by
    simp [fenceJsonOpen, fenceTicks, jsonLit]
  have hrun : wsRun ('\n' :: ((c :: rest) ++ (nlFence ++ post))) = ['\n'] := by
    have hwnl : jsWhitespace '\n' = true := by decide
    simp [wsRun, List.takeWhile_cons, hwnl, hws]
  have hcand : newlineCandidates ('\n' :: ((c :: rest) ++ (nlFence ++ post))) = [0] := by
    rw [newlineCandidates, hrun]
    simp [List.range_succ, List.getD]
  have hmatch : matchFenceAt (fenceJsonOpen ++ ((c :: rest) ++ (nlFence ++ post))) =
      some (c :: rest) := by
    rw [matchFenceAt, if_pos h1, if_pos h2, h3, hcand, tryCandidates]
    rw [List.drop_succ_cons, List.drop_zero, firstIdxOf_nlFence_boundary _ _ hnl]
    show some (List.take (c :: rest).length ((c :: rest) ++ (nlFence ++ post))) =
      some (c :: rest)
    rw [List.take_left]
  have hshape : fenceJsonOpen ++ ((c :: rest) ++ (nlFence ++ post)) =
      '\x60' :: (['\x60', '\x60', 'j', 's', 'o', 'n', '\n'] ++
        ((c :: rest) ++ (nlFence ++ post))) := rfl
  rw [hshape, firstCodeBlock, ← hshape, hmatch]

/-- The parameters value Agent.parseToolCall builds from the parsed
object: parsed.parameters or-defaulted to the empty object. -/
def paramsOfFields (fields : List (List Char × Json)) : Json :=
  match objLookup fields "parameters".data with
  | some p => if jsTruthy p then p else Json.obj []
  | none => Json.obj []

lemma parseToolCall_of_firstCodeBlock (content g : List Char)
    (fields : List (List Char × Json)) (t : Json)
    (hblock : firstCodeBlock content = some g)
    (hjson : jsonParse (trimJs g) = some (Json.obj fields))
    (htool : objLookup fields "tool".data = some t) :
    Agent.parseToolCall content = some { tool := t, parameters := paramsOfFields fields } := by
  simp only [Agent.parseToolCall, hblock, hjson, htool]
  rfl

/-! ## Agent run: first-iteration lemmas -/

/-- The turn the model streams on the first iteration of a run. -/
def firstTurn (cfg : AgentConfig) (llm : List Message → String) (hist : List Message)
    (u : String) : String :=
  llm (preparedMessages
    (Agent.getSystemPrompt cfg (ToolRegistry.register cfg.toolRegistry finishTool))
    (hist ++ [{ role := Role.user, content := u }]))

lemma jsOrNat_pos (v : Option Nat) : 0 < jsOrNat v 10 := by
  cases v with
  | none => simp [jsOrNat]
  | some n =>
    simp only [jsOrNat]
    split
    · decide
    · rename_i h
      simp only [beq_iff_eq] at h
      omega

lemma agentLoop_succ (reg : ToolRegistry) (llm : List Message → String) (sys : String)
    (fuel : Nat) (acc : RunAcc) (hstop : acc.shouldStop = false) :
    agentLoop reg llm sys (fuel + 1) acc =
      (if (agentBody reg llm sys acc).2 then (agentBody reg llm sys acc).1
       else agentLoop reg llm sys fuel (agentBody reg llm sys acc).1) := by
  simp only [agentLoop, hstop]
  rfl

lemma agentRun_first_parse_none (cfg : AgentConfig) (llm : List Message → String)
    (hist : List Message) (u : String)
    (h : Agent.parseToolCall (firstTurn cfg llm hist u).data = none) :
    Agent.run cfg llm hist u =
      { messages := (hist ++ [{ role := Role.user, content := u }]) ++
          [{ role := Role.assistant, content := firstTurn cfg llm hist u }],
        fragments := [firstTurn cfg llm hist u] ++
          (if jsOrNat cfg.maxIterations 10 ≤ 1 then [maxIterationsFragment] else []),
        toolCallEvents := [], toolResultEvents := [], shouldStop := false,
        iterations := 1 } := by
  obtain ⟨k, hk⟩ := Nat.exists_eq_succ_of_ne_zero
    (Nat.pos_iff_ne_zero.mp (jsOrNat_pos cfg.maxIterations))
  have hbody := agentBody_parse_none
    (ToolRegistry.register cfg.toolRegistry finishTool) llm
    (Agent.getSystemPrompt cfg (ToolRegistry.register cfg.toolRegistry finishTool))
    { messages := hist ++ [{ role := Role.user, content := u }], fragments := [],
      toolCallEvents := [], toolResultEvents := [], shouldStop := false, iterations := 0 }
    (by simpa [firstTurn, preparedMessages] using h)
  simp only [Agent.run, hk]
  rw [agentLoop_succ _ _ _ _ _ rfl, hbody]
  by_cases hk1 : k + 1 ≤ 1 <;>
    simp [hk1, firstTurn, preparedMessages]

lemma agentRun_first_finish (cfg : AgentConfig) (llm : List Message → String)
    (hist : List Message) (u : String) (tc : ParsedToolCall) (tool : ToolDefinition)
    (vp res : Json)
    (h1 : Agent.parseToolCall (firstTurn cfg llm hist u).data = some tc)
    (h2 : registryGetJson (ToolRegistry.register cfg.toolRegistry finishTool) tc.tool =
      some tool)
    (h3 : tool.validate tc.parameters = Except.ok vp)
    (h4 : tool.execute vp = ExecOutcome.ok res true) :
    Agent.run cfg llm hist u =
      { messages := (hist ++ [{ role := Role.user, content := u }]) ++
          [{ role := Role.assistant, content := firstTurn cfg llm hist u }],
        fragments := [firstTurn cfg llm hist u, finishedFragment res],
        toolCallEvents := [(tool.id, vp)], toolResultEvents := [(tool.id, res)],
        shouldStop := true, iterations := 1 } := by
  obtain ⟨k, hk⟩ := Nat.exists_eq_succ_of_ne_zero
    (Nat.pos_iff_ne_zero.mp (jsOrNat_pos cfg.maxIterations))
  have hbody := agentBody_finish_stop
    (ToolRegistry.register cfg.toolRegistry finishTool) llm
    (Agent.getSystemPrompt cfg (ToolRegistry.register cfg.toolRegistry finishTool))
    { messages := hist ++ [{ role := Role.user, content := u }], fragments := [],
      toolCallEvents := [], toolResultEvents := [], shouldStop := false, iterations := 0 }
    tc tool vp res rfl
    (by simpa [firstTurn, preparedMessages] using h1) h2 h3 h4
  simp only [Agent.run, hk]
  rw [agentLoop_succ _ _ _ _ _ rfl, hbody]
  simp [firstTurn, preparedMessages]

/-! ## C1: only the first fenced block is scanned -/

/-- The well-formed block that appears later in the counterexample
turn. -/
def c1WellFormedTail : List Char :=
  "\x60\x60\x60json\n\x7b\"tool\": \"calculator\", \"parameters\": \x7b\x7d\x7d\n\x60\x60\x60".data

/-- A turn whose first fenced block is malformed JSON, followed by the
well-formed block. -/
def c1Turn : List Char :=
  "\x60\x60\x60json\nnot json\n\x60\x60\x60\nsome text\n".data ++ c1WellFormedTail

/-- A three-iteration configuration with an empty registry. -/
def c1Cfg : AgentConfig :=
  { systemPrompt := "You are helpful.", toolRegistry := [], maxIterations := some 3 }

/-- Counterexample for C1: the later block alone parses as a well-formed
calculator call, yet on the whole turn parseToolCall yields nothing
(the malformed first block is the only one examined), and the run ends
naturally after one iteration with no tool invoked. -/
theorem parse_skips_later_wellformed_block :
    Agent.parseToolCall c1WellFormedTail =
      some { tool := Json.str "calculator".data, parameters := Json.obj [] } ∧
    Agent.parseToolCall c1Turn = none ∧
    (Agent.run c1Cfg (fun _ => String.mk c1Turn) [] "go").toolCallEvents = [] ∧
    (Agent.run c1Cfg (fun _ => String.mk c1Turn) [] "go").iterations = 1 :=
  ⟨rfl, rfl, rfl, rfl⟩

/-- C1 (amended): the loop examines only the regex-first fenced block of
a turn. When that block is well-formed, its call is honored and
everything after the block — any text and any further blocks — is
ignored; when the scan yields no tool call (in particular when the first
block is malformed, even if a later one is well-formed), the run ends
naturally after that turn with no tool invoked. -/
theorem agent_first_block_only :
    (∀ (g post : List Char) (fields : List (List Char × Json)) (t : Json),
      g ≠ [] → jsWhitespace g.headI = false → '\n' ∉ g →
      jsonParse (trimJs g) = some (Json.obj fields) →
      objLookup fields "tool".data = some t →
      Agent.parseToolCall (fenceJsonOpen ++ (g ++ (nlFence ++ post))) =
        some { tool := t, parameters := paramsOfFields fields }) ∧
    (∀ cfg llm hist u,
      Agent.parseToolCall (firstTurn cfg llm hist u).data = none →
      (Agent.run cfg llm hist u).toolCallEvents = [] ∧
      (Agent.run cfg llm hist u).toolResultEvents = [] ∧
      (Agent.run cfg llm hist u).iterations = 1 ∧
      (Agent.run cfg llm hist u).messages =
        (hist ++ [{ role := Role.user, content := u }]) ++
          [{ role := Role.assistant, content := firstTurn cfg llm hist u }]) := by
  constructor
  · intro g post fields t hne hws hnl hjson htool
    exact parseToolCall_of_firstCodeBlock _ g fields t
      (firstCodeBlock_json_wrap g post hne hws hnl) hjson htool
  · intro cfg llm hist u h
    rw [agentRun_first_parse_none cfg llm hist u h]
    exact ⟨rfl, rfl, rfl, rfl⟩

/-- A well-formed finish block body. -/
def c1WitnessBlock : List Char := "\x7b\"tool\": \"finish\"\x7d".data

/-- Arbitrary trailing text with one more fenced block after it. -/
def c1WitnessPost : List Char :=
  "\nEXTRA\n\x60\x60\x60json\n\x7b\"tool\": \"other\"\x7d\n\x60\x60\x60".data

/-- Witness for C1: the leading finish block is honored for every
suffix, here one carrying a second block, and a blockless turn ends a
concrete run after one iteration. -/
theorem agent_first_block_only_witness :
    Agent.parseToolCall (fenceJsonOpen ++ (c1WitnessBlock ++ (nlFence ++ c1WitnessPost))) =
      some { tool := Json.str "finish".data,
             parameters := paramsOfFields [("tool".data, Json.str "finish".data)] } ∧
    (Agent.run c1Cfg (fun _ => "plain text") [] "go").toolCallEvents = [] ∧
    (Agent.run c1Cfg (fun _ => "plain text") [] "go").iterations = 1 := by
  refine ⟨?_, ?_, ?_⟩
  · exact agent_first_block_only.1 c1WitnessBlock c1WitnessPost
      [("tool".data, Json.str "finish".data)] (Json.str "finish".data)
      (by decide) (by decide) (by decide) (by rfl) (by rfl)
  · exact (agent_first_block_only.2 c1Cfg (fun _ => "plain text") [] "go" (by rfl)).1
  · exact (agent_first_block_only.2 c1Cfg (fun _ => "plain text") [] "go" (by rfl)).2.2.1

/-! ## C10: a tool field without parameters defaults to the empty object -/

/-- C10: when the first fenced block parses to an object with a tool
field and no parameters field, parseToolCall returns that call with the
empty parameter object — the turn is not treated as having no tool call,
and the loop proceeds to registry lookup (continuing, not ending, when
the id is unknown). -/
theorem parseToolCall_missing_parameters :
    ∀ (content g : List Char) (fields : List (List Char × Json)) (t : Json),
      firstCodeBlock content = some g →
      jsonParse (trimJs g) = some (Json.obj fields) →
      objLookup fields "tool".data = some t →
      objLookup fields "parameters".data = none →
      Agent.parseToolCall content = some { tool := t, parameters := Json.obj [] } ∧
      (∀ reg sys acc, registryGetJson reg t = none →
        (agentBody reg (fun _ => String.mk content) sys acc).2 = false) := by
  intro content g fields t hb hj ht hp
  have hparse := parseToolCall_of_firstCodeBlock content g fields t hb hj ht
  rw [paramsOfFields, hp] at hparse
  refine ⟨hparse, ?_⟩
  intro reg sys acc hreg
  rw [agentBody_unknown_tool reg (fun _ => String.mk content) sys acc
    { tool := t, parameters := Json.obj [] } hparse hreg]

/-- A turn whose block has a tool field and no parameters field. -/
def c10Content : List Char :=
  "\x60\x60\x60json\n\x7b\"tool\": \"nope\"\x7d\n\x60\x60\x60".data

/-- An initial run state for the C10 witness. -/
def c10Acc : RunAcc :=
  { messages := [{ role := Role.user, content := "go" }], fragments := [],
    toolCallEvents := [], toolResultEvents := [], shouldStop := false, iterations := 0 }

/-- Witness for C10: the parameterless block is parsed as a call with
empty parameters and an unknown id continues the loop. -/
theorem parseToolCall_missing_parameters_witness :
    Agent.parseToolCall c10Content =
      some { tool := Json.str "nope".data, parameters := Json.obj [] } ∧
    (agentBody [] (fun _ => String.mk c10Content) "sys" c10Acc).2 = false := by
  obtain ⟨h1, h2⟩ := parseToolCall_missing_parameters c10Content
    "\x7b\"tool\": \"nope\"\x7d".data [("tool".data, Json.str "nope".data)]
    (Json.str "nope".data) (by rfl) (by rfl) (by rfl) (by rfl)
  exact ⟨h1, h2 [] "sys" c10Acc (by rfl)⟩

/-! ## C5: validation failures skip execution and are fed back -/

lemma mem_infix_joinSep (sep x : String) (l : List String) (hx : x ∈ l) :
    x.data <:+: (joinSep sep l).data := by
  induction l with
  | nil => cases hx
  | cons y ys ih =>
    rcases List.mem_cons.mp hx with rfl | hmem
    · by_cases hys : ys.isEmpty
      · rw [joinSep, if_pos hys]
      · rw [joinSep, if_neg hys]
        exact ⟨[], (sep ++ joinSep sep ys).data, by simp⟩
    · by_cases hys : ys.isEmpty
      · rw [List.isEmpty_iff] at hys
        subst hys
        cases hmem
      · rw [joinSep, if_neg hys]
        obtain ⟨s1, t1, hst⟩ := ih hmem
        exact ⟨(y ++ sep).data ++ s1, t1, by simp [← hst]⟩

lemma infix_data_append_left (x : List Char) (a b : String) (h : x <:+: b.data) :
    x <:+: (a ++ b).data := by
  obtain ⟨s, t, hst⟩ := h
  exact ⟨a.data ++ s, t, by simp [← hst]⟩

/-- C5: when the parameters of a parsed tool call fail the schema
validation, the iteration does not execute the tool (no onToolCall and
no onToolResult event), appends a user-role message enumerating every
failed field with its reason (each rendered issue occurs verbatim in
that message), yields a visible error fragment, and continues the loop
instead of breaking. -/
theorem agent_validation_failure (reg : ToolRegistry) (llm : List Message → String)
    (sys : String) (acc : RunAcc) (tc : ParsedToolCall) (tool : ToolDefinition)
    (errs : List ZodIssue)
    (h1 : Agent.parseToolCall (llm (preparedMessages sys acc.messages)).data = some tc)
    (h2 : registryGetJson reg tc.tool = some tool)
    (h3 : tool.validate tc.parameters = Except.error errs) :
    (agentBody reg llm sys acc).2 = false ∧
    (agentBody reg llm sys acc).1.toolCallEvents = acc.toolCallEvents ∧
    (agentBody reg llm sys acc).1.toolResultEvents = acc.toolResultEvents ∧
    (agentBody reg llm sys acc).1.messages =
      (acc.messages ++
        [{ role := Role.assistant, content := llm (preparedMessages sys acc.messages) }]) ++
      [{ role := Role.user,
         content := "Parameter validation failed for tool \x27" ++ tool.id ++ "\x27: " ++
           joinSep ", " (errs.map ZodIssue.render) }] ∧
    (agentBody reg llm sys acc).1.fragments =
      (acc.fragments ++ [llm (preparedMessages sys acc.messages)]) ++
      ["\n\n[Parameter Validation Error: " ++ joinSep ", " (errs.map ZodIssue.render) ++ "]"] ∧
    (∀ e ∈ errs, (ZodIssue.render e).data <:+:
      ("Parameter validation failed for tool \x27" ++ tool.id ++ "\x27: " ++
        joinSep ", " (errs.map ZodIssue.render)).data) := by
  rw [agentBody_validation_error reg llm sys acc tc tool errs h1 h2 h3]
  refine ⟨rfl, rfl, rfl, rfl, rfl, ?_⟩
  intro e he
  exact infix_data_append_left _ _ _
    (mem_infix_joinSep _ _ _ (List.mem_map_of_mem ZodIssue.render he))

/-- A tool whose schema rejects every input with two field issues. -/
def c5Tool : ToolDefinition where
  id := "strict"
  name := "Strict"
  description := "always rejects"
  paramsDesc := ""
  validate := fun _ =>
    Except.error [⟨["a"], "Required"⟩, ⟨["b"], "Expected number"⟩]
  execute := fun _ => ExecOutcome.ok Json.null false

/-- A registry holding only the strict tool. -/
def c5Reg : ToolRegistry := ToolRegistry.register [] c5Tool

/-- A turn calling the strict tool. -/
def c5Turn : List Char :=
  "\x60\x60\x60json\n\x7b\"tool\": \"strict\", \"parameters\": \x7b\x7d\x7d\n\x60\x60\x60".data

/-- An initial run state for the C5 witness. -/
def c5Acc : RunAcc :=
  { messages := [{ role := Role.user, content := "go" }], fragments := [],
    toolCallEvents := [], toolResultEvents := [], shouldStop := false, iterations := 0 }

/-- Witness for C5: the strict tool is not executed, both issues appear
in the appended user message, and the loop continues. -/
theorem agent_validation_failure_witness :
    (agentBody c5Reg (fun _ => String.mk c5Turn) "sys" c5Acc).2 = false ∧
    (agentBody c5Reg (fun _ => String.mk c5Turn) "sys" c5Acc).1.toolCallEvents = [] ∧
    (∀ e ∈ [(⟨["a"], "Required"⟩ : ZodIssue), ⟨["b"], "Expected number"⟩],
      (ZodIssue.render e).data <:+:
        ("Parameter validation failed for tool \x27" ++ c5Tool.id ++ "\x27: " ++
          joinSep ", "
            ([(⟨["a"], "Required"⟩ : ZodIssue), ⟨["b"], "Expected number"⟩].map
              ZodIssue.render)).data) := by
  obtain ⟨hb, hc, hr, hm, hf, hin⟩ := agent_validation_failure c5Reg
    (fun _ => String.mk c5Turn) "sys" c5Acc
    { tool := Json.str "strict".data, parameters := Json.obj [] } c5Tool
    [⟨["a"], "Required"⟩, ⟨["b"], "Expected number"⟩]
    (by rfl) (by rfl) (by rfl)
  exact ⟨hb, by rw [hc]; rfl, hin⟩

/-! ## C4: the max-iterations fragment -/

/-- A one-iteration configuration with an empty registry. -/
def c4Cfg : AgentConfig :=
  { systemPrompt := "sp", toolRegistry := [], maxIterations := some 1 }

/-- Counterexample for C4: a run that ends naturally (no tool call in
its only turn) on the last budgeted iteration still emits the
max-iterations fragment. -/
theorem agent_max_fragment_on_natural_end :
    Agent.parseToolCall "no tool call here".data = none ∧
    (Agent.run c4Cfg (fun _ => "no tool call here") [] "hi").fragments =
      ["no tool call here", maxIterationsFragment] ∧
    (Agent.run c4Cfg (fun _ => "no tool call here") [] "hi").toolCallEvents = [] :=
  ⟨rfl, rfl, rfl⟩

/-- C4 (amended): the max-iterations fragment is emitted iff the loop
ends with its iteration count at the budget and the stop flag unset: a
natural end strictly before the last budgeted iteration emits nothing
beyond the turn, a finish-stop never emits it, but a natural end exactly
on the last budgeted iteration does emit it. -/
theorem agent_max_iterations_fragment :
    (∀ cfg llm hist u,
      Agent.parseToolCall (firstTurn cfg llm hist u).data = none →
      2 ≤ jsOrNat cfg.maxIterations 10 →
      (Agent.run cfg llm hist u).fragments = [firstTurn cfg llm hist u] ∧
      (Agent.run cfg llm hist u).iterations = 1 ∧
      (Agent.run cfg llm hist u).shouldStop = false) ∧
    (∀ cfg llm hist u,
      Agent.parseToolCall (firstTurn cfg llm hist u).data = none →
      jsOrNat cfg.maxIterations 10 = 1 →
      (Agent.run cfg llm hist u).fragments =
        [firstTurn cfg llm hist u, maxIterationsFragment]) ∧
    (∀ cfg llm hist u tc tool vp res,
      Agent.parseToolCall (firstTurn cfg llm hist u).data = some tc →
      registryGetJson (ToolRegistry.register cfg.toolRegistry finishTool) tc.tool =
        some tool →
      tool.validate tc.parameters = Except.ok vp →
      tool.execute vp = ExecOutcome.ok res true →
      (Agent.run cfg llm hist u).fragments =
        [firstTurn cfg llm hist u, finishedFragment res] ∧
      (Agent.run cfg llm hist u).shouldStop = true) := by
  refine ⟨?_, ?_, ?_⟩
  · intro cfg llm hist u h hm
    rw [agentRun_first_parse_none cfg llm hist u h]
    have hgt : ¬ jsOrNat cfg.maxIterations 10 ≤ 1 := by omega
    simp [hgt]
  · intro cfg llm hist u h hm
    rw [agentRun_first_parse_none cfg llm hist u h, hm]
    simp
  · intro cfg llm hist u tc tool vp res h1 h2 h3 h4
    rw [agentRun_first_finish cfg llm hist u tc tool vp res h1 h2 h3 h4]
    exact ⟨rfl, rfl⟩

/-- A three-iteration configuration for the C4 witness. -/
def c4Cfg3 : AgentConfig :=
  { systemPrompt := "sp", toolRegistry := [], maxIterations := some 3 }

/-- Witness for C4: a natural end before the budget emits only the turn
text. -/
theorem agent_max_iterations_fragment_witness :
    (Agent.run c4Cfg3 (fun _ => "hello") [] "hi").fragments = ["hello"] ∧
    (Agent.run c4Cfg3 (fun _ => "hello") [] "hi").iterations = 1 ∧
    (Agent.run c4Cfg3 (fun _ => "hello") [] "hi").shouldStop = false := by
  exact agent_max_iterations_fragment.1 c4Cfg3 (fun _ => "hello") [] "hi"
    (by rfl) (by decide)

end CloudflareChatbot
